import Mathlib

/-!
Verification development for the adsb2dd repository (ADS-B to delay-Doppler
conversion server).

JavaScript numbers are modelled as rationals (ℚ).  The host environment's
transcendental primitives (Math.sin, Math.cos, Math.sqrt, Math.log, Math.exp,
Math.PI) are external library calls, not repository code; they are passed in
as an explicit record of functions (JsMath), so every repository-level
definition stays computable and all structural properties are proved for an
arbitrary interpretation of those primitives.  The seedrandom pseudo-random
generator is likewise an external dependency; its raw output is modelled as
a stream of rationals in [0, 1).

JavaScript `throw` is modelled by returning `none` from an `Option`-valued
function; `undefined` object fields are modelled with `Option`.
-/

namespace Adsb2dd

/-- External host math primitives (Math.sin etc.), kept abstract. -/
structure JsMath where
  sin : ℚ → ℚ
  cos : ℚ → ℚ
  sqrt : ℚ → ℚ
  log : ℚ → ℚ
  exp : ℚ → ℚ
  pi : ℚ

/-- A concrete trivial interpretation of the host math primitives, used only
to instantiate universally quantified theorems at a concrete input. -/
def mathZero : JsMath :=
  { sin := fun _ => 0, cos := fun _ => 0, sqrt := fun _ => 0,
    log := fun _ => 0, exp := fun _ => 0, pi := 0 }

/-- ECEF Cartesian vector, mirroring the {x, y, z} objects of the source. -/
structure Vec3 where
  x : ℚ
  y : ℚ
  z : ℚ
deriving DecidableEq

/-- Componentwise difference of two ECEF vectors (the source writes the
subtractions inline when calling `norm`). -/
def vsub (a b : Vec3) : Vec3 :=
  { x := a.x - b.x, y := a.y - b.y, z := a.z - b.z }

/-- Euclidean length, from `norm` in the source (sqrt of sum of squares). -/
def vnorm (math : JsMath) (v : Vec3) : ℚ :=
  math.sqrt (v.x * v.x + v.y * v.y + v.z * v.z)

/-- Feet to metres, from `ft2m` in the source: ft * 0.3048. -/
def ft2m (ft : ℚ) : ℚ := ft * 0.3048

/-- WGS84 geodetic-to-ECEF conversion, translated from the `lla2ecef`
implementation in src/node/synthetic.js (semi-major axis 6378137,
flattening 1/298.257223563). -/
def lla2ecef (math : JsMath) (lat lon alt : ℚ) : Vec3 :=
  let radian : ℚ := math.pi / 180
  let a : ℚ := 6378137
  let f : ℚ := 1 / 298.257223563
  let esq : ℚ := 2 * f - f * f
  let latRad : ℚ := lat * radian
  let lonRad : ℚ := lon * radian
  let N : ℚ := a / math.sqrt (1 - esq * math.sin latRad * math.sin latRad)
  { x := (N + alt) * math.cos latRad * math.cos lonRad,
    y := (N + alt) * math.cos latRad * math.sin lonRad,
    z := (N * (1 - esq) + alt) * math.sin latRad }

/-- Wavelength from carrier frequency in MHz, per the source:
299792458 / (fc * 1000000). -/
def calculateWavelength (fc : ℚ) : ℚ := 299792458 / (fc * 1000000)

/-- One aircraft report from a snapshot.  Fields that may be absent (or NaN,
which behaves like an absent value for the validity checks) are `Option`.
The hex code and flight id are abstract identifiers. -/
structure Aircraft where
  hex : ℕ
  lat : Option ℚ
  lon : Option ℚ
  alt_geom : Option ℚ
  flight : Option ℕ
  gs : Option ℚ
  track : Option ℚ
  geom_rate : Option ℚ
  seen_pos : ℚ
deriving DecidableEq

/-- The per-aircraft validity test of the tick transform: lat, lon and
alt_geom must be valid numbers and flight must be defined. -/
def isValidAircraft (a : Aircraft) : Bool :=
  a.lat.isSome && a.lon.isSome && a.alt_geom.isSome && a.flight.isSome

/-- ENU-to-ECEF velocity rotation, translated from `enuToEcef` in the
source. -/
def enuToEcef (math : JsMath) (vel_e vel_n vel_u lat_rad lon_rad : ℚ) : Vec3 :=
  let sin_lat := math.sin lat_rad
  let cos_lat := math.cos lat_rad
  let sin_lon := math.sin lon_rad
  let cos_lon := math.cos lon_rad
  { x := -sin_lon * vel_e - sin_lat * cos_lon * vel_n + cos_lat * cos_lon * vel_u,
    y := cos_lon * vel_e - sin_lat * sin_lon * vel_n + cos_lat * sin_lon * vel_u,
    z := cos_lat * vel_n + sin_lat * vel_u }

/-- The arithmetic core of the velocity-based Doppler estimator, translated
from the ungated computation in the source test harness (ENU decomposition
of ground speed / track / vertical rate, rotation to ECEF, projection on
the unit line-of-sight vectors toward receiver and transmitter, conversion
to Hz by the wavelength).  Absent optional fields read as 0 here; the gates
of `calculateDopplerFromVelocity` run first and keep this branch honest. -/
def dopplerFromVelocityValue (math : JsMath) (a : Aircraft)
    (aircraft_ecef ecefRx ecefTx : Vec3) (dRxTar dTxTar fc : ℚ) : ℚ :=
  let gs_ms := a.gs.getD 0 * 0.514444
  let track_rad := a.track.getD 0 * math.pi / 180
  let vel_east := gs_ms * math.sin track_rad
  let vel_north := gs_ms * math.cos track_rad
  let vel_up := match a.geom_rate with
    | some r => r * 0.00508
    | none => 0
  let lat_rad := a.lat.getD 0 * math.pi / 180
  let lon_rad := a.lon.getD 0 * math.pi / 180
  let vel_ecef := enuToEcef math vel_east vel_north vel_up lat_rad lon_rad
  let vec_to_rx : Vec3 :=
    { x := (ecefRx.x - aircraft_ecef.x) / dRxTar,
      y := (ecefRx.y - aircraft_ecef.y) / dRxTar,
      z := (ecefRx.z - aircraft_ecef.z) / dRxTar }
  let vec_to_tx : Vec3 :=
    { x := (ecefTx.x - aircraft_ecef.x) / dTxTar,
      y := (ecefTx.y - aircraft_ecef.y) / dTxTar,
      z := (ecefTx.z - aircraft_ecef.z) / dTxTar }
  let range_rate_rx := vel_ecef.x * vec_to_rx.x + vel_ecef.y * vec_to_rx.y +
    vel_ecef.z * vec_to_rx.z
  let range_rate_tx := vel_ecef.x * vec_to_tx.x + vel_ecef.y * vec_to_tx.y +
    vel_ecef.z * vec_to_tx.z
  let bistatic_range_rate := range_rate_rx + range_rate_tx
  let wavelength := calculateWavelength fc
  (-bistatic_range_rate) / wavelength

/-- Modelled from the spec: the validity gates of the velocity Doppler
estimator in src/node/doppler.js, whose source file is not in the snapshot
(only its callers in server.js and its unit tests in test/doppler.test.js
are).  Per the spec, the gates are: ground speed undefined/NaN/negative or
above 1000 kt; track undefined or outside [0, 360); either node distance
below 100 m; latitude or longitude out of valid ranges; altitude outside
[-1000, 100000] ft when present; vertical rate with magnitude above
20000 ft/min when present.  `none` in an Option field stands for an
undefined or NaN report value. -/
def velocityGatesOk (a : Aircraft) (dRxTar dTxTar : ℚ) : Bool :=
  match a.gs, a.track, a.lat, a.lon with
  | some gs, some track, some lat, some lon =>
    decide (0 ≤ gs) && decide (gs ≤ 1000) &&
    decide (0 ≤ track) && decide (track < 360) &&
    decide (100 ≤ dRxTar) && decide (100 ≤ dTxTar) &&
    decide (-90 ≤ lat) && decide (lat ≤ 90) &&
    decide (-180 ≤ lon) && decide (lon ≤ 180) &&
    (match a.alt_geom with
     | some alt => decide (-1000 ≤ alt) && decide (alt ≤ 100000)
     | none => true) &&
    (match a.geom_rate with
     | some r => decide (|r| ≤ 20000)
     | none => true)
  | _, _, _, _ => false

/-- Modelled from the spec: the velocity Doppler estimator of
src/node/doppler.js (file absent from the snapshot): the gates run before
any computation and any failing gate yields the null sentinel; otherwise
the arithmetic core (taken verbatim from the in-repository copy in the
test harness) produces the Doppler in Hz. -/
def calculateDopplerFromVelocity (math : JsMath) (a : Aircraft)
    (aircraft_ecef ecefRx ecefTx : Vec3) (dRxTar dTxTar fc : ℚ) : Option ℚ :=
  if velocityGatesOk a dRxTar dTxTar then
    some (dopplerFromVelocityValue math a aircraft_ecef ecefRx ecefTx dRxTar dTxTar fc)
  else
    none

/-- Median of an array, translated from `calculateMovingMedian` in
server.js: sort ascending, average the two middle entries when the length
is even, else take the middle entry.  (Out-of-range reads return 0, which
mirrors the fact that the source never calls this on an empty array.) -/
def calculateMovingMedian (arr : List ℚ) : ℚ :=
  let sortedArr := arr.insertionSort (· ≤ ·)
  let middle := sortedArr.length / 2
  if sortedArr.length % 2 = 0 then
    (sortedArr.getD (middle - 1) 0 + sortedArr.getD middle 0) / 2
  else
    sortedArr.getD middle 0

/-- Smoothed derivative of delays with respect to timestamps, translated
from `smoothedDerivativeUsingMedian` in server.js.  `none` models the
thrown Error on invalid input; note the guard inspects only the lengths
and k, never the ordering of the timestamps. -/
def smoothedDerivativeUsingMedian (delays timestamps : List ℚ) (k : ℕ) :
    Option (List ℚ) :=
  if delays.length ≠ timestamps.length ∨ delays.length < 2 ∨ k < 2 then
    none
  else
    some ((List.range delays.length).map (fun i =>
      let startIdx := i + 1 - k
      let endIdx := i + 1
      let lastKDelays := (delays.take endIdx).drop startIdx
      let lastKTimestamps := (timestamps.take endIdx).drop startIdx
      let deltaDelays := (List.range lastKDelays.length).map (fun idx =>
        if 0 < idx then
          (lastKDelays.getD idx 0 - lastKDelays.getD (idx - 1) 0) /
            (lastKTimestamps.getD idx 0 - lastKTimestamps.getD (idx - 1) 0)
        else 0)
      calculateMovingMedian deltaDelays))

/-- Spec-side median: sort ascending; an even-length list averages the two
middle values, an odd-length list takes the middle value. -/
def medianOf (l : List ℚ) : ℚ :=
  let s := l.insertionSort (· ≤ ·)
  if s.length % 2 = 0 then
    (s.getD (s.length / 2 - 1) 0 + s.getD (s.length / 2) 0) / 2
  else
    s.getD (s.length / 2) 0

/-- Spec-side forward finite differences: consecutive sample delta divided
by elapsed time. -/
def forwardDiffs : List ℚ → List ℚ → List ℚ
  | d1 :: d2 :: ds, t1 :: t2 :: ts => ((d2 - d1) / (t2 - t1)) :: forwardDiffs (d2 :: ds) (t2 :: ts)
  | _, _ => []

/-- Spec-side trailing window of min(k, i+1) samples ending at index i. -/
def windowEnding (k i : ℕ) (xs : List ℚ) : List ℚ :=
  let upto := xs.take (i + 1)
  upto.drop (upto.length - min k (i + 1))

/-- Spec-side smoothed derivative at one index: the median of the window's
differences, the first element of the window contributing a zero. -/
def smoothedSpecAt (delays timestamps : List ℚ) (k i : ℕ) : ℚ :=
  medianOf (0 :: forwardDiffs (windowEnding k i delays) (windowEnding k i timestamps))

/-- Spec-side smoothed derivative over every index of the buffer. -/
def smoothedDerivativeSpec (delays timestamps : List ℚ) (k : ℕ) : List ℚ :=
  (List.range delays.length).map (fun i => smoothedSpecAt delays timestamps k i)

/-- A JSON scalar as produced for the output record: `limit_digits` returns
either a plain number or a decimal string. -/
inductive JsValue where
  | num (q : ℚ)
  | str (s : String)
deriving DecidableEq

/-- Decimal digit character for n % 10. -/
def digitChar (n : ℕ) : Char := Char.ofNat (48 + n % 10)

/-- The five fraction digits of toFixed(5): the rounded scaled magnitude
modulo 100000, most significant digit first. -/
def frac5 (n : ℕ) : List Char :=
  [digitChar (n % 100000 / 10000), digitChar (n % 100000 / 1000),
   digitChar (n % 100000 / 100), digitChar (n % 100000 / 10), digitChar (n % 100000)]

/-- Sign and integer part of toFixed(5) (the digits before the decimal
point), from the sign of the input and the rounded scaled magnitude. -/
def intPart5 (q : ℚ) (n : ℕ) : String :=
  (if q < 0 then String.mk [Char.ofNat 45] else String.mk []) ++ Nat.repr (n / 100000)

/-- The rounded scaled magnitude used by toFixed(5): the integer closest to
|q| * 10^5, ties toward the larger integer, per the ECMAScript Number.toFixed
algorithm. -/
def scaled5 (q : ℚ) : ℕ := (Int.floor (|q| * 100000 + 1 / 2)).toNat

/-- Number.toFixed(5), on rationals: sign, integer digits, a decimal point
and exactly five fraction digits. -/
def toFixed5 (q : ℚ) : String :=
  intPart5 q (scaled5 q) ++ String.mk (Char.ofNat 46 :: frac5 (scaled5 q))

/-- `limit_digits` from server.js: an integral number is returned unchanged
as a number, anything else becomes the toFixed(5) decimal string. -/
def limit_digits (q : ℚ) : JsValue :=
  if q.den = 1 then JsValue.num q else JsValue.str (toFixed5 q)

/-- Doppler method tag written next to the merged Doppler value. -/
inductive DopplerMethod where
  | velocity
  | position
deriving DecidableEq

/-- One entry of a session's output map (dict[key].out[hex]).  Every field
starts absent; note the source never writes lat/lon/alt into the output
record (the unchanged-position check reads them from here while the update
writes them to the processing record). -/
structure OutRec where
  timestamp : Option ℚ := none
  flight : Option ℕ := none
  lat : Option ℚ := none
  lon : Option ℚ := none
  alt : Option ℚ := none
  delay : Option JsValue := none
  doppler : Option JsValue := none
  doppler_method : Option DopplerMethod := none
  doppler_vel : Option JsValue := none
  doppler_pos : Option JsValue := none
deriving DecidableEq

/-- One entry of a session's processing map (dict[key].proc[hex]). -/
structure ProcRec where
  delays : List ℚ := []
  timestamps : List ℚ := []
  lat : Option ℚ := none
  lon : Option ℚ := none
  alt : Option ℚ := none
deriving DecidableEq

/-- JavaScript object lookup obj[k], as an association list keyed by hex
codes. -/
def mget {α : Type} : List (ℕ × α) → ℕ → Option α
  | [], _ => none
  | (k, v) :: rest, key => if k = key then some v else mget rest key

/-- JavaScript object assignment obj[k] = v: replace in place when the key
exists, append otherwise. -/
def mset {α : Type} : List (ℕ × α) → ℕ → α → List (ℕ × α)
  | [], key, v => [(key, v)]
  | (k, w) :: rest, key, v =>
    if k = key then (k, v) :: rest else (k, w) :: mset rest key v

/-- The keys of a JavaScript object, in insertion order. -/
def keysOf {α : Type} (l : List (ℕ × α)) : List ℕ := l.map Prod.fst

/-- The output-record update of one processed aircraft, from the tail of
the per-aircraft loop in `adsb2dd`: timestamp, flight and delay are always
written; the merged doppler and its method tag prefer the velocity
estimate, fall back to the position estimate, and are left untouched when
both are absent; each raw estimate is attached as a diagnostic exactly
when it was computed. -/
def mkOutRec (o : OutRec) (ts : ℚ) (flight : Option ℕ) (delayKm : ℚ)
    (vel pos : Option ℚ) : OutRec :=
  let o1 := { o with timestamp := some ts, flight := flight,
                     delay := some (limit_digits delayKm) }
  let o2 := match vel, pos with
    | some v, _ => { o1 with doppler := some (limit_digits v),
                             doppler_method := some DopplerMethod.velocity }
    | none, some q => { o1 with doppler := some (limit_digits q),
                                doppler_method := some DopplerMethod.position }
    | none, none => o1
  let o3 := match vel with
    | some v => { o2 with doppler_vel := some (limit_digits v) }
    | none => o2
  match pos with
  | some q => { o3 with doppler_pos := some (limit_digits q) }
  | none => o3

/-- The history-buffer push of one processed aircraft, from the
`delays.push`/`timestamps.push` and the guarded `shift()` pair of
`adsb2dd`: append the new sample, and once the pushed length reaches the
bound (nMaxDelayArray = 10, tested inside the length-at-least-2 block)
drop the oldest sample from both arrays. -/
def pushDelaySample (delays timestamps : List ℚ) (d t : ℚ) :
    List ℚ × List ℚ :=
  let ds0 := delays ++ [d]
  let ts0 := timestamps ++ [t]
  if 2 ≤ ds0.length ∧ 10 ≤ ds0.length then (ds0.drop 1, ts0.drop 1)
  else (ds0, ts0)

/-- One session of the store (one entry of the global dict): rx/tx
geometry, carrier frequency, output and processing maps, the last client
access time and the last processed source time. -/
structure Session where
  out : List (ℕ × OutRec)
  proc : List (ℕ × ProcRec)
  timestamp : ℚ
  lastProcessed : ℚ
  lastProcessedTime : ℚ
  fc : ℚ
  ecefRx : Vec3
  ecefTx : Vec3
  dRxTx : ℚ
deriving DecidableEq

/-- Target ECEF position of an aircraft report (lla2ecef on lat, lon and
the geometric altitude converted to metres). -/
def targetEcef (math : JsMath) (a : Aircraft) : Vec3 :=
  lla2ecef math (a.lat.getD 0) (a.lon.getD 0) (ft2m (a.alt_geom.getD 0))

/-- Target-to-receiver distance for one report in a session. -/
def dRxTarOf (math : JsMath) (s : Session) (a : Aircraft) : ℚ :=
  vnorm math (vsub s.ecefRx (targetEcef math a))

/-- Target-to-transmitter distance for one report in a session. -/
def dTxTarOf (math : JsMath) (s : Session) (a : Aircraft) : ℚ :=
  vnorm math (vsub s.ecefTx (targetEcef math a))

/-- Bistatic delay in metres for one report in a session. -/
def delayOf (math : JsMath) (s : Session) (a : Aircraft) : ℚ :=
  dRxTarOf math s a + dTxTarOf math s a - s.dRxTx

/-- The velocity-based Doppler estimate for one report in a session. -/
def velEstimateOf (math : JsMath) (s : Session) (a : Aircraft) : Option ℚ :=
  calculateDopplerFromVelocity math a (targetEcef math a) s.ecefRx s.ecefTx
    (dRxTarOf math s a) (dTxTarOf math s a) s.fc

/-- The position-based Doppler estimate for one report in a session: after
the new sample is pushed, at least two samples must be present, and the
estimate is -(last smoothed derivative)/wavelength.  `none` models both
the length guard and a thrown smoother error. -/
def posEstimateOf (math : JsMath) (jnow : ℚ) (s : Session) (a : Aircraft) :
    Option ℚ :=
  let p := (mget s.proc a.hex).getD {}
  let ds0 := p.delays ++ [delayOf math s a]
  let ts0 := p.timestamps ++ [jnow - a.seen_pos]
  if 2 ≤ ds0.length then
    (smoothedDerivativeUsingMedian ds0 ts0 10).map
      (fun arr => (-(arr.getLast?.getD 0)) / calculateWavelength s.fc)
  else none

/-- The per-aircraft body of the `adsb2dd` loop: skip invalid reports;
create output and processing entries together on first sighting; skip when
the report position equals the lat/lon/alt stored in the output record
(which the source never writes, so this check cannot fire for a valid
report); otherwise push the new delay sample, run both estimators and
write both records. -/
def processAircraft (math : JsMath) (jnow : ℚ) (s : Session) (a : Aircraft) :
    Session :=
  if isValidAircraft a then
    let s1 := if (mget s.out a.hex).isSome then s else
      { s with out := mset s.out a.hex {}, proc := mset s.proc a.hex {} }
    let o := (mget s1.out a.hex).getD {}
    let p := (mget s1.proc a.hex).getD {}
    if o.lat = a.lat ∧ o.lon = a.lon ∧ o.alt = a.alt_geom then s1
    else
      let ts := jnow - a.seen_pos
      let vel := velEstimateOf math s1 a
      let pos := posEstimateOf math jnow s1 a
      let final := pushDelaySample p.delays p.timestamps (delayOf math s1 a) ts
      let o1 := mkOutRec o ts a.flight (delayOf math s1 a / 1000) vel pos
      let p1 := { p with lat := a.lat, lon := a.lon, alt := a.alt_geom,
                         delays := final.1, timestamps := final.2 }
      { s1 with out := mset s1.out a.hex o1, proc := mset s1.proc a.hex p1 }
  else s

/-- The staleness test of the eviction pass at the top of `adsb2dd`: an
output key whose record's detection timestamp is more than
tDeletePlane = 5 s old is stale (an absent record or timestamp compares
false, as NaN does in the source). -/
def staleAt (now : ℚ) (s : Session) (h : ℕ) : Bool :=
  match mget s.out h with
  | some r => match r.timestamp with
    | some t => decide (now - t > 5)
    | none => false
  | none => false

/-- The stale-track eviction pass at the top of `adsb2dd`: every stale
output key is deleted from the output map and from the processing map. -/
def evictStalePlanes (now : ℚ) (s : Session) : Session :=
  { s with out := s.out.filter (fun pr => ! staleAt now s pr.1),
           proc := s.proc.filter (fun pr => ! staleAt now s pr.1) }

/-- The whole `adsb2dd` transform for one snapshot: evict stale tracks,
then process every aircraft of the snapshot in order. -/
def adsb2ddModel (math : JsMath) (now jnow : ℚ) (planes : List Aircraft)
    (s : Session) : Session :=
  planes.foldl (fun st a => processAircraft math jnow st a) (evictStalePlanes now s)

/-- A fetched aircraft.json payload: the reported source time, and the
aircraft list when present and an array (`none` models a malformed
payload). -/
structure TarJson where
  now : ℚ
  aircraft : Option (List Aircraft)
deriving DecidableEq

/-- `getTar1090` after the fetch resolved: a successful fetch returns the
parsed payload unchanged; any failure (HTTP error, timeout, parse error)
is caught and replaced by a fabricated snapshot carrying the current wall
time and an empty aircraft array. -/
def getTar1090Model (fetched : Option TarJson) (wallNow : ℚ) : TarJson :=
  match fetched with
  | some j => j
  | none => { now := wallNow, aircraft := some [] }

/-- The tail of the tick loop body after `adsb2dd` ran: record the
processed source time and the wall time, then delete the session when the
client has been idle longer than tDelete = 30 s (`none` means deleted). -/
def processTickFinish (now jnow : ℚ) (s1 : Session) : Option Session :=
  let s2 := { s1 with lastProcessed := jnow, lastProcessedTime := now }
  if now - s2.timestamp > 30 then none else some s2

/-- One session's slice of a scheduler tick, from the loop body of
`process_adsb2dd`: skip on a malformed payload; skip when the source time
is unchanged and less than tMaxStaleness = 10 s has passed; otherwise run
`adsb2dd` and finish with the last-processed update and the idle-session
eviction check.  Both skip paths leave the session untouched and never
reach that eviction check. -/
def processSessionTick (math : JsMath) (now : ℚ) (j : TarJson) (s : Session) :
    Option Session :=
  match j.aircraft with
  | none => some s
  | some planes =>
    if j.now = s.lastProcessed ∧ now - s.lastProcessedTime < 10 then some s
    else processTickFinish now j.now (adsb2ddModel math now j.now planes s)

/-- The cache-hit branch of the /api/dd handler: an existing session's
last-client-access timestamp is refreshed and its output map is served. -/
def readSession (now : ℚ) (s : Session) : Session :=
  { s with timestamp := now }

/-- Session creation from the /api/dd handler once the source liveness
probe succeeded: empty output and processing maps, rx/tx ECEF and baseline
distance precomputed, clocks initialised. -/
def mkSession (math : JsMath) (rxLat rxLon rxAlt txLat txLon txAlt fc now : ℚ) :
    Session :=
  let ecefRx := lla2ecef math rxLat rxLon rxAlt
  let ecefTx := lla2ecef math txLat txLon txAlt
  { out := [], proc := [], timestamp := now, lastProcessed := 0,
    lastProcessedTime := 0, fc := fc, ecefRx := ecefRx, ecefTx := ecefTx,
    dRxTx := vnorm math (vsub ecefRx ecefTx) }

/-- The session states reachable through the request path and the
scheduler: creation, surviving ticks, and client reads. -/
inductive Reachable (math : JsMath) : Session → Prop
  | init (rxLat rxLon rxAlt txLat txLon txAlt fc now : ℚ) :
      Reachable math (mkSession math rxLat rxLon rxAlt txLat txLon txAlt fc now)
  | tick {s s1 : Session} (now : ℚ) (j : TarJson) :
      Reachable math s → processSessionTick math now j s = some s1 →
      Reachable math s1
  | read {s : Session} (now : ℚ) :
      Reachable math s → Reachable math (readSession now s)

/-- Structural well-formedness of a session's maps: the output and
processing maps hold the same keys in the same order, output records never
carry a position (the source never writes one), and every processing
record has as many delays as timestamps and at least one sample. -/
structure WF (s : Session) : Prop where
  keys_eq : keysOf s.out = keysOf s.proc
  out_lat : ∀ k r, mget s.out k = some r → r.lat = none
  proc_len : ∀ k p, mget s.proc k = some p →
    p.delays.length = p.timestamps.length
  proc_ne : ∀ k p, mget s.proc k = some p → p.delays ≠ []

/-- The seedrandom-backed generator of src/node/synthetic.js.  The
underlying seedrandom library is an external dependency; its raw output
sequence (each call returning a value in [0, 1)) is modelled as a stream
indexed by how many draws have been consumed. -/
structure SyntheticRNG where
  stream : ℕ → ℚ
  idx : ℕ
deriving Inhabited

/-- One raw draw from the underlying generator (this.rng()). -/
def SyntheticRNG.next (r : SyntheticRNG) : ℚ × SyntheticRNG :=
  (r.stream r.idx, { r with idx := r.idx + 1 })

/-- uniform(min, max) = min + rng() * (max - min). -/
def SyntheticRNG.uniform (r : SyntheticRNG) (lo hi : ℚ) : ℚ × SyntheticRNG :=
  let (u, r1) := r.next
  (lo + u * (hi - lo), r1)

/-- gaussian(mean, std) via the Box-Muller transform, consuming two raw
draws; sqrt, log, cos and pi come from the host math primitives. -/
def SyntheticRNG.gaussian (math : JsMath) (r : SyntheticRNG) (mean std : ℚ) :
    ℚ × SyntheticRNG :=
  let (u1, r1) := r.next
  let (u2, r2) := r1.next
  let z0 := math.sqrt (-2 * math.log u1) * math.cos (2 * math.pi * u2)
  (mean + z0 * std, r2)

/-- bernoulli(p) = rng() < p. -/
def SyntheticRNG.bernoulli (r : SyntheticRNG) (p : ℚ) : Bool × SyntheticRNG :=
  let (u, r1) := r.next
  (decide (u < p), r1)

/-- The do-while loop of poisson(lambda): multiply raw draws into p until
p no longer exceeds L, counting iterations.  The JavaScript loop has no
iteration bound; the fuel argument caps the recursion and is irrelevant
whenever the loop exits within fuel iterations. -/
def SyntheticRNG.poissonLoop : ℕ → ℚ → ℕ → ℚ → SyntheticRNG →
    ℕ × SyntheticRNG
  | 0, _, k, _, r => (k, r)
  | fuel + 1, L, k, p, r =>
    let (u, r1) := r.next
    let p1 := p * u
    let k1 := k + 1
    if p1 > L then SyntheticRNG.poissonLoop fuel L k1 p1 r1 else (k1, r1)

/-- poisson(lambda) by repeated multiplication against L = exp(-lambda);
non-positive lambda returns 0 without consuming draws. -/
def SyntheticRNG.poisson (math : JsMath) (fuel : ℕ) (r : SyntheticRNG)
    (lam : ℚ) : ℕ × SyntheticRNG :=
  if lam ≤ 0 then (0, r)
  else
    let L := math.exp (-lam)
    let (k, r1) := SyntheticRNG.poissonLoop fuel L 0 1 r
    (k - 1, r1)

/-- The synthetic-generation configuration after parsing (seed excluded:
it only selects the external stream). -/
structure SyntheticConfig where
  noise_delay : ℚ
  noise_doppler : ℚ
  snr_min : ℚ
  snr_max : ℚ
  detection_prob : ℚ
  false_alarm_rate : ℚ
  frame_interval : ℚ
  duration : ℚ
  delay_min : ℚ
  delay_max : ℚ
  doppler_min : ℚ
  doppler_max : ℚ
deriving DecidableEq

/-- The individual rules of validateSyntheticConfig, one tag per pushed
error message. -/
inductive CfgError where
  | noiseDelayNeg
  | noiseDopplerNeg
  | snrOrder
  | detectionProbRange
  | falseAlarmNeg
  | frameIntervalNonpos
  | durationNonpos
  | durationTooLong
  | delayOrder
  | dopplerOrder
  | tooManyFrames
deriving DecidableEq

/-- validateSyntheticConfig from src/node/synthetic.js: every violated
rule contributes an error, in source order; an empty list means valid.
MAX_FRAMES = 1000 and MAX_DURATION_SECONDS = 300. -/
def validateSyntheticConfig (cfg : SyntheticConfig) : List CfgError :=
  (if cfg.noise_delay < 0 then [CfgError.noiseDelayNeg] else []) ++
  (if cfg.noise_doppler < 0 then [CfgError.noiseDopplerNeg] else []) ++
  (if cfg.snr_min > cfg.snr_max then [CfgError.snrOrder] else []) ++
  (if cfg.detection_prob < 0 ∨ cfg.detection_prob > 1 then [CfgError.detectionProbRange] else []) ++
  (if cfg.false_alarm_rate < 0 then [CfgError.falseAlarmNeg] else []) ++
  (if cfg.frame_interval ≤ 0 then [CfgError.frameIntervalNonpos] else []) ++
  (if cfg.duration ≤ 0 then [CfgError.durationNonpos] else []) ++
  (if cfg.duration > 300 then [CfgError.durationTooLong] else []) ++
  (if cfg.delay_min ≥ cfg.delay_max then [CfgError.delayOrder] else []) ++
  (if cfg.doppler_min ≥ cfg.doppler_max then [CfgError.dopplerOrder] else []) ++
  (if Int.ceil (cfg.duration * 1000 / cfg.frame_interval) > 1000 then [CfgError.tooManyFrames] else [])

/-- Per-aircraft true delay-Doppler data handed to the frame generator
(fields may be absent for a track with no estimate yet). -/
structure AirData where
  delay : Option ℚ
  doppler : Option ℚ
  flight : Option ℕ
deriving DecidableEq

/-- The ADS-B metadata attached to a real synthetic detection. -/
structure AdsbMeta where
  hex : ℕ
  flight : Option ℕ
deriving DecidableEq

/-- The four index-aligned arrays being built for one frame, plus the
generator state after building them. -/
structure FramePieces where
  delay : List ℚ
  doppler : List ℚ
  snr : List ℚ
  adsb : List (Option AdsbMeta)
  rng : SyntheticRNG

/-- One synthetic detection frame. -/
structure Frame where
  timestamp : ℚ
  delay : List ℚ
  doppler : List ℚ
  snr : List ℚ
  adsb : List (Option AdsbMeta)

/-- The aircraft loop of generateSyntheticFrame: skip a track without
delay/Doppler data; spend one Bernoulli(detection_prob) draw per remaining
track and emit nothing on a miss; on a hit add Gaussian noise to delay and
Doppler, draw a Uniform(snr_min, snr_max) SNR and attach the track's
metadata. -/
def detectionPass (math : JsMath) (cfg : SyntheticConfig) :
    List (ℕ × AirData) → SyntheticRNG → FramePieces
  | [], r => { delay := [], doppler := [], snr := [], adsb := [], rng := r }
  | (hex, data) :: rest, r =>
    match data.delay, data.doppler with
    | some dl, some dp =>
      let (hit, r1) := r.bernoulli cfg.detection_prob
      if hit then
        let (n1, r2) := SyntheticRNG.gaussian math r1 0 cfg.noise_delay
        let (n2, r3) := SyntheticRNG.gaussian math r2 0 cfg.noise_doppler
        let (snr, r4) := r3.uniform cfg.snr_min cfg.snr_max
        let acc := detectionPass math cfg rest r4
        { delay := (dl + n1) :: acc.delay, doppler := (dp + n2) :: acc.doppler,
          snr := snr :: acc.snr,
          adsb := some { hex := hex, flight := data.flight } :: acc.adsb,
          rng := acc.rng }
      else detectionPass math cfg rest r1
    | _, _ => detectionPass math cfg rest r

/-- The false-alarm loop of generateSyntheticFrame: each clutter detection
draws delay and Doppler uniformly over the configured extents, an SNR
uniformly between snr_min and 0.7 * snr_max, and carries null metadata. -/
def clutterPass (cfg : SyntheticConfig) : ℕ → SyntheticRNG → FramePieces
  | 0, r => { delay := [], doppler := [], snr := [], adsb := [], rng := r }
  | n + 1, r =>
    let (d, r1) := r.uniform cfg.delay_min cfg.delay_max
    let (dp, r2) := r1.uniform cfg.doppler_min cfg.doppler_max
    let (sn, r3) := r2.uniform cfg.snr_min (cfg.snr_max * 0.7)
    let acc := clutterPass cfg n r3
    { delay := d :: acc.delay, doppler := dp :: acc.doppler,
      snr := sn :: acc.snr, adsb := none :: acc.adsb, rng := acc.rng }

/-- generateSyntheticFrame from src/node/synthetic.js: real detections
first, then a Poisson(false_alarm_rate) count of clutter detections
appended to all four arrays. -/
def generateSyntheticFrame (math : JsMath) (fuel : ℕ)
    (aircraftDict : List (ℕ × AirData)) (timestamp : ℚ)
    (cfg : SyntheticConfig) (r : SyntheticRNG) : Frame × SyntheticRNG :=
  let det := detectionPass math cfg aircraftDict r
  let pres := SyntheticRNG.poisson math fuel det.rng cfg.false_alarm_rate
  let cl := clutterPass cfg pres.1 pres.2
  ({ timestamp := timestamp, delay := det.delay ++ cl.delay,
     doppler := det.doppler ++ cl.doppler, snr := det.snr ++ cl.snr,
     adsb := det.adsb ++ cl.adsb }, cl.rng)

/-- A concrete idle session with empty maps (created at second 0, one
snapshot of source time 5 already processed), used to instantiate
universally quantified theorems. -/
def sessionIdle : Session :=
  { out := [], proc := [], timestamp := 0, lastProcessed := 5,
    lastProcessedTime := 0, fc := 100, ecefRx := ⟨0, 0, 0⟩,
    ecefTx := ⟨0, 0, 0⟩, dRxTx := 0 }

/-- A concrete session whose client has been idle since second 0 but whose
snapshot was processed at second 31 with source time 5: a tick at second
35 whose payload repeats source time 5 hits the debounce. -/
def sessionIdleDebounce : Session :=
  { out := [], proc := [], timestamp := 0, lastProcessed := 5,
    lastProcessedTime := 31, fc := 100, ecefRx := ⟨0, 0, 0⟩,
    ecefTx := ⟨0, 0, 0⟩, dRxTx := 0 }

/-- A concrete session holding one track whose last detection is 50 s old,
with the client last seen at second 95. -/
def sessionStale : Session :=
  { out := [(1, { timestamp := some 50 })],
    proc := [(1, { delays := [5], timestamps := [50] })],
    timestamp := 95, lastProcessed := 5, lastProcessedTime := 0,
    fc := 100, ecefRx := ⟨0, 0, 0⟩, ecefTx := ⟨0, 0, 0⟩, dRxTx := 0 }

/-- The state `sessionStale` reaches after a tick at wall/source time 100
fed an empty aircraft list: the stale track evicted from both maps and the
last-processed clocks updated. -/
def sessionStaleTicked : Session :=
  { out := [], proc := [], timestamp := 95, lastProcessed := 100,
    lastProcessedTime := 100, fc := 100, ecefRx := ⟨0, 0, 0⟩,
    ecefTx := ⟨0, 0, 0⟩, dRxTx := 0 }

/-- A validated synthetic configuration (defaults apart from snr_min = 15)
whose SNR floor exceeds 0.7 times its SNR ceiling. -/
def cfgSnrHigh : SyntheticConfig :=
  { noise_delay := 0.5, noise_doppler := 2, snr_min := 15, snr_max := 20,
    detection_prob := 0.95, false_alarm_rate := 0.5, frame_interval := 500,
    duration := 10, delay_min := 0, delay_max := 400,
    doppler_min := -200, doppler_max := 200 }

/-- A host-math interpretation whose exp is the constant 3/5 (a coarse
stand-in for exp(-0.5) ≈ 0.607, the only call the scenario makes). -/
def mathExpC9 : JsMath := { mathZero with exp := fun _ => 3 / 5 }

/-- A concrete raw generator stream: 0.9, then 0.1, then zeros — the first
two draws drive the Poisson loop to return one false alarm. -/
def rngC9 : SyntheticRNG :=
  { stream := fun n => if n = 0 then 9 / 10 else if n = 1 then 1 / 10 else 0,
    idx := 0 }

/-- A concrete valid aircraft report with no ground speed (so the velocity
estimator's gates fail), used to instantiate universally quantified
theorems. -/
def aircraftNoGs : Aircraft :=
  { hex := 2, lat := some 1, lon := some 2, alt_geom := some 1000,
    flight := some 7, gs := none, track := some 90, geom_rate := none,
    seen_pos := 0 }

section MapLemmas

variable {α : Type}

lemma mget_mset_self (l : List (ℕ × α)) (k : ℕ) (v : α) :
    mget (mset l k v) k = some v := by
  induction l with
  | nil => simp [mset, mget]
  | cons hd tl ih =>
    by_cases h : hd.1 = k
    · simp [mset, mget, h]
    · simp [mset, mget, h, ih]

lemma mget_mset_ne (l : List (ℕ × α)) (k k₂ : ℕ) (v : α) (h : k₂ ≠ k) :
    mget (mset l k v) k₂ = mget l k₂ := by
  induction l with
  | nil =>
    simp only [mset, mget]
    rw [if_neg (fun hk => h hk.symm)]
  | cons hd tl ih =>
    obtain ⟨k1, w⟩ := hd
    by_cases hh : k1 = k
    · subst hh
      simp only [mset, if_pos rfl, mget]
      rw [if_neg (fun hk => h hk.symm), if_neg (fun hk => h hk.symm)]
    · by_cases hk2 : k1 = k₂
      · subst hk2
        simp [mset, if_neg hh, mget]
      · simp [mset, mget, hh, hk2, ih]

lemma keysOf_mset_present (l : List (ℕ × α)) (k : ℕ) (v : α)
    (h : (mget l k).isSome) : keysOf (mset l k v) = keysOf l := by
  induction l with
  | nil => simp [mget] at h
  | cons hd tl ih =>
    by_cases hh : hd.1 = k
    · simp [mset, keysOf, hh]
    · simp only [mget, hh, if_false] at h
      simp [mset, keysOf, hh] at ih ⊢
      exact ih h

lemma keysOf_mset_absent (l : List (ℕ × α)) (k : ℕ) (v : α)
    (h : mget l k = none) : keysOf (mset l k v) = keysOf l ++ [k] := by
  induction l with
  | nil => simp [mset, keysOf]
  | cons hd tl ih =>
    by_cases hh : hd.1 = k
    · simp [mget, hh] at h
    · simp only [mget, hh, if_false] at h
      simp [mset, keysOf, hh] at ih ⊢
      exact ih h

lemma mget_isSome_iff_mem (l : List (ℕ × α)) (k : ℕ) :
    (mget l k).isSome ↔ k ∈ keysOf l := by
  induction l with
  | nil => simp [mget, keysOf]
  | cons hd tl ih =>
    by_cases hh : hd.1 = k
    · simp [mget, keysOf, hh]
    · simp [mget, keysOf, hh, ih, Ne.symm hh]

lemma mget_filter_key (q : ℕ → Bool) (l : List (ℕ × α)) (k : ℕ) :
    mget (l.filter (fun p => q p.1)) k = if q k then mget l k else none := by
  induction l with
  | nil => simp [mget]
  | cons hd tl ih =>
    by_cases hq : q hd.1
    · by_cases hh : hd.1 = k
      · subst hh
        simp [List.filter, hq, mget, ih]
      · simp [List.filter, hq, mget, hh, ih]
    · by_cases hh : hd.1 = k
      · subst hh
        simp [List.filter, hq, mget, ih, Bool.eq_false_iff.mpr hq]
      · simp [List.filter, hq, mget, hh, ih]

lemma keysOf_filter_key (q : ℕ → Bool) (l : List (ℕ × α)) :
    keysOf (l.filter (fun p => q p.1)) = (keysOf l).filter q := by
  induction l with
  | nil => simp [keysOf]
  | cons hd tl ih =>
    by_cases hq : q hd.1
    · simp [List.filter, hq, keysOf] at ih ⊢
      exact ih
    · simp [List.filter, hq, keysOf, Bool.eq_false_iff.mpr hq] at ih ⊢
      exact ih

end MapLemmas

section SmootherLemmas

lemma medianOf_eq_movingMedian (l : List ℚ) :
    medianOf l = calculateMovingMedian l := rfl

lemma windowEnding_eq_slice (k i : ℕ) (xs : List ℚ) (h : i < xs.length) :
    windowEnding k i xs = (xs.take (i + 1)).drop (i + 1 - k) := by
  show (xs.take (i + 1)).drop ((xs.take (i + 1)).length - min k (i + 1))
      = (xs.take (i + 1)).drop (i + 1 - k)
  rw [List.length_take]
  congr 1
  omega

lemma diffs_aux (dp tp : ℚ) :
    ∀ (d t : List ℚ), d.length = t.length →
    (List.range d.length).map (fun idx =>
        (d.getD idx 0 - (dp :: d).getD idx 0) /
          (t.getD idx 0 - (tp :: t).getD idx 0))
      = forwardDiffs (dp :: d) (tp :: t) := by
  intro d
  induction d generalizing dp tp with
  | nil =>
    intro t ht
    simp [forwardDiffs]
  | cons d1 d2 ih =>
    intro t ht
    cases t with
    | nil => simp at ht
    | cons t1 t2 =>
      simp only [List.length_cons, List.range_succ_eq_map, List.map_cons,
        List.map_map]
      have hlen : d2.length = t2.length := by
        simpa using ht
      rw [show forwardDiffs (dp :: d1 :: d2) (tp :: t1 :: t2)
          = ((d1 - dp) / (t1 - tp)) :: forwardDiffs (d1 :: d2) (t1 :: t2)
          from rfl]
      congr 1
      rw [← ih d1 t1 t2 hlen]
      apply List.map_congr_left
      intro idx _
      simp [Function.comp, List.getD_cons_succ, List.getD_eq_getElem?_getD, List.getElem?_cons_succ]

lemma codeDiffs_cons (w1 t1 : ℚ) (w2 t2 : List ℚ) (h : w2.length = t2.length) :
    (List.range (w1 :: w2).length).map (fun idx =>
        if 0 < idx then
          ((w1 :: w2).getD idx 0 - (w1 :: w2).getD (idx - 1) 0) /
            ((t1 :: t2).getD idx 0 - (t1 :: t2).getD (idx - 1) 0)
        else 0)
      = 0 :: forwardDiffs (w1 :: w2) (t1 :: t2) := by
  simp only [List.length_cons, List.range_succ_eq_map, List.map_cons,
    List.map_map]
  congr 1
  rw [← diffs_aux w1 t1 w2 t2 h]
  apply List.map_congr_left
  intro idx _
  simp [Function.comp, List.getD_cons_succ, List.getD_eq_getElem?_getD, List.getElem?_cons_succ]

lemma smoothed_eq_spec (delays ts : List ℚ) (hlen : delays.length = ts.length)
    (h2 : 2 ≤ delays.length) :
    smoothedDerivativeUsingMedian delays ts 10
      = some (smoothedDerivativeSpec delays ts 10) := by
  unfold smoothedDerivativeUsingMedian smoothedDerivativeSpec
  rw [if_neg (by omega)]
  congr 1
  apply List.map_congr_left
  intro i hi
  rw [List.mem_range] at hi
  have hits : i < ts.length := by omega
  show calculateMovingMedian
      ((List.range ((delays.take (i + 1)).drop (i + 1 - 10)).length).map
        (fun idx =>
          if 0 < idx then
            (((delays.take (i + 1)).drop (i + 1 - 10)).getD idx 0 -
                ((delays.take (i + 1)).drop (i + 1 - 10)).getD (idx - 1) 0) /
              (((ts.take (i + 1)).drop (i + 1 - 10)).getD idx 0 -
                ((ts.take (i + 1)).drop (i + 1 - 10)).getD (idx - 1) 0)
          else 0))
      = smoothedSpecAt delays ts 10 i
  have hlw : ((delays.take (i + 1)).drop (i + 1 - 10)).length
      = ((ts.take (i + 1)).drop (i + 1 - 10)).length := by
    simp only [List.length_drop, List.length_take]
    omega
  have hne : ((delays.take (i + 1)).drop (i + 1 - 10)).length ≠ 0 := by
    simp only [List.length_drop, List.length_take]
    omega
  unfold smoothedSpecAt
  rw [windowEnding_eq_slice 10 i delays hi, windowEnding_eq_slice 10 i ts hits,
    medianOf_eq_movingMedian]
  cases hD : (delays.take (i + 1)).drop (i + 1 - 10) with
  | nil => rw [hD] at hne; simp at hne
  | cons w1 w2 =>
    cases hT : (ts.take (i + 1)).drop (i + 1 - 10) with
    | nil =>
      rw [hD, hT] at hlw
      simp at hlw
    | cons t1 t2 =>
      rw [hD, hT] at hlw
      rw [codeDiffs_cons w1 t1 w2 t2 (by simpa using hlw)]

end SmootherLemmas

section SessionLemmas

lemma mkOutRec_lat (o : OutRec) (ts : ℚ) (fl : Option ℕ) (d : ℚ)
    (vel pos : Option ℚ) : (mkOutRec o ts fl d vel pos).lat = o.lat := by
  unfold mkOutRec
  cases vel <;> cases pos <;> rfl

lemma pushDelaySample_length (ds ts : List ℚ) (d t : ℚ)
    (h : ds.length = ts.length) :
    (pushDelaySample ds ts d t).1.length = (pushDelaySample ds ts d t).2.length := by
  simp only [pushDelaySample]
  split <;> simp [h]

lemma pushDelaySample_ne (ds ts : List ℚ) (d t : ℚ) :
    (pushDelaySample ds ts d t).1 ≠ [] := by
  simp only [pushDelaySample]
  split
  next hs =>
    intro hc
    have hl := congrArg List.length hc
    simp only [List.length_drop, List.length_append, List.length_singleton,
      List.length_nil] at hl
    simp only [List.length_append, List.length_singleton] at hs
    omega
  next => simp

lemma pushDelaySample_len_le (ds ts : List ℚ) (d t : ℚ) (h : ds.length ≤ 9) :
    (pushDelaySample ds ts d t).1.length ≤ 9 := by
  simp only [pushDelaySample]
  split
  next hs =>
    simp only [List.length_drop, List.length_append, List.length_singleton]
    omega
  next hs =>
    simp only [List.length_append, List.length_singleton]
    simp only [List.length_append, List.length_singleton] at hs
    omega

lemma processAircraft_invalid (math : JsMath) (jnow : ℚ) (s : Session)
    (a : Aircraft) (hv : ¬ isValidAircraft a = true) :
    processAircraft math jnow s a = s := by
  unfold processAircraft
  rw [if_neg hv]

lemma valid_lat_isSome (a : Aircraft) (hv : isValidAircraft a = true) :
    ∃ la, a.lat = some la := by
  unfold isValidAircraft at hv
  simp only [Bool.and_eq_true, Option.isSome_iff_exists] at hv
  exact hv.1.1.1

lemma posEstimateOf_congr (math : JsMath) (jnow : ℚ) (s s2 : Session)
    (a : Aircraft)
    (hmap : (mget s2.proc a.hex).getD {} = (mget s.proc a.hex).getD {})
    (hrx : s2.ecefRx = s.ecefRx) (htx : s2.ecefTx = s.ecefTx)
    (hb : s2.dRxTx = s.dRxTx) (hfc : s2.fc = s.fc) :
    posEstimateOf math jnow s2 a = posEstimateOf math jnow s a := by
  unfold posEstimateOf delayOf dRxTarOf dTxTarOf
  rw [hmap, hrx, htx, hb, hfc]

lemma velEstimateOf_congr (math : JsMath) (s s2 : Session) (a : Aircraft)
    (hrx : s2.ecefRx = s.ecefRx) (htx : s2.ecefTx = s.ecefTx)
    (hfc : s2.fc = s.fc) :
    velEstimateOf math s2 a = velEstimateOf math s a := by
  unfold velEstimateOf dRxTarOf dTxTarOf
  rw [hrx, htx, hfc]

lemma processAircraft_absent (math : JsMath) (jnow : ℚ) (s : Session)
    (a : Aircraft) (hv : isValidAircraft a = true)
    (hmem : mget s.out a.hex = none) (hpm : mget s.proc a.hex = none) :
    processAircraft math jnow s a =
      { s with
        out := mset (mset s.out a.hex {}) a.hex
          (mkOutRec {} (jnow - a.seen_pos) a.flight (delayOf math s a / 1000)
            (velEstimateOf math s a) (posEstimateOf math jnow s a)),
        proc := mset (mset s.proc a.hex {}) a.hex
          { delays := (pushDelaySample [] [] (delayOf math s a) (jnow - a.seen_pos)).1,
            timestamps := (pushDelaySample [] [] (delayOf math s a) (jnow - a.seen_pos)).2,
            lat := a.lat, lon := a.lon, alt := a.alt_geom } } := by
  obtain ⟨la, hla⟩ := valid_lat_isSome a hv
  simp only [processAircraft, hv, if_true, hmem, Option.isSome_none,
    Bool.false_eq_true, if_false, mget_mset_self, Option.getD_some, hla]
  rw [if_neg (by simp)]
  have hpos : posEstimateOf math jnow
      { s with out := mset s.out a.hex {}, proc := mset s.proc a.hex {} } a
      = posEstimateOf math jnow s a := by
    refine posEstimateOf_congr math jnow s _ a ?_ rfl rfl rfl rfl
    show (mget (mset s.proc a.hex {}) a.hex).getD {} = (mget s.proc a.hex).getD {}
    rw [mget_mset_self, hpm]
    rfl
  rw [hpos]
  rfl

lemma processAircraft_present (math : JsMath) (jnow : ℚ) (s : Session)
    (a : Aircraft) (o₀ : OutRec) (p₀ : ProcRec)
    (hv : isValidAircraft a = true)
    (hmem : mget s.out a.hex = some o₀) (hlat : o₀.lat = none)
    (hpm : mget s.proc a.hex = some p₀) :
    processAircraft math jnow s a =
      { s with
        out := mset s.out a.hex
          (mkOutRec o₀ (jnow - a.seen_pos) a.flight (delayOf math s a / 1000)
            (velEstimateOf math s a) (posEstimateOf math jnow s a)),
        proc := mset s.proc a.hex
          { delays := (pushDelaySample p₀.delays p₀.timestamps
              (delayOf math s a) (jnow - a.seen_pos)).1,
            timestamps := (pushDelaySample p₀.delays p₀.timestamps
              (delayOf math s a) (jnow - a.seen_pos)).2,
            lat := a.lat, lon := a.lon, alt := a.alt_geom } } := by
  obtain ⟨la, hla⟩ := valid_lat_isSome a hv
  have hsome : (mget s.out a.hex).isSome = true := by rw [hmem]; rfl
  simp only [processAircraft, hv, if_true, hmem, hpm, Option.isSome_some,
    Option.getD_some, hla, hlat]
  rw [if_neg (by simp)]

lemma mget_evict_out (now : ℚ) (s : Session) (k : ℕ) :
    mget (evictStalePlanes now s).out k
      = if ! staleAt now s k then mget s.out k else none :=
  mget_filter_key (fun n => ! staleAt now s n) s.out k

lemma mget_evict_proc (now : ℚ) (s : Session) (k : ℕ) :
    mget (evictStalePlanes now s).proc k
      = if ! staleAt now s k then mget s.proc k else none :=
  mget_filter_key (fun n => ! staleAt now s n) s.proc k

lemma keys_evict_out (now : ℚ) (s : Session) :
    keysOf (evictStalePlanes now s).out
      = (keysOf s.out).filter (fun n => ! staleAt now s n) :=
  keysOf_filter_key (fun n => ! staleAt now s n) s.out

lemma keys_evict_proc (now : ℚ) (s : Session) :
    keysOf (evictStalePlanes now s).proc
      = (keysOf s.proc).filter (fun n => ! staleAt now s n) :=
  keysOf_filter_key (fun n => ! staleAt now s n) s.proc

lemma wf_evict (now : ℚ) (s : Session) (h : WF s) :
    WF (evictStalePlanes now s) := by
  constructor
  · rw [keys_evict_out, keys_evict_proc, h.keys_eq]
  · intro k r hr
    have hr2 : (if ! staleAt now s k then mget s.out k else none) = some r :=
      (mget_evict_out now s k).symm.trans hr
    split at hr2
    · exact h.out_lat k r hr2
    · exact absurd hr2 (by simp)
  · intro k p hp
    have hp2 : (if ! staleAt now s k then mget s.proc k else none) = some p :=
      (mget_evict_proc now s k).symm.trans hp
    split at hp2
    · exact h.proc_len k p hp2
    · exact absurd hp2 (by simp)
  · intro k p hp
    have hp2 : (if ! staleAt now s k then mget s.proc k else none) = some p :=
      (mget_evict_proc now s k).symm.trans hp
    split at hp2
    · exact h.proc_ne k p hp2
    · exact absurd hp2 (by simp)

lemma wf_processAircraft (math : JsMath) (jnow : ℚ) (s : Session)
    (a : Aircraft) (h : WF s) : WF (processAircraft math jnow s a) := by
  by_cases hv : isValidAircraft a = true
  · have hiff : (mget s.proc a.hex).isSome ↔ (mget s.out a.hex).isSome := by
      rw [mget_isSome_iff_mem, mget_isSome_iff_mem, h.keys_eq]
    cases hmem : mget s.out a.hex with
    | none =>
      have hpm : mget s.proc a.hex = none := by
        rcases hp : mget s.proc a.hex with _ | p₀
        · rfl
        · exfalso
          have h1 : (mget s.proc a.hex).isSome := by rw [hp]; rfl
          have h2 := hiff.mp h1
          rw [hmem] at h2
          simp at h2
      rw [processAircraft_absent math jnow s a hv hmem hpm]
      constructor
      · show keysOf (mset (mset s.out a.hex {}) a.hex _)
          = keysOf (mset (mset s.proc a.hex {}) a.hex _)
        rw [keysOf_mset_present (mset s.out a.hex {}) a.hex _
            (by rw [mget_mset_self]; rfl),
          keysOf_mset_absent s.out a.hex _ hmem,
          keysOf_mset_present (mset s.proc a.hex {}) a.hex _
            (by rw [mget_mset_self]; rfl),
          keysOf_mset_absent s.proc a.hex _ hpm,
          h.keys_eq]
      · intro k r hr
        by_cases hk : k = a.hex
        · subst hk
          rw [mget_mset_self] at hr
          cases hr
          rw [mkOutRec_lat]
        · rw [mget_mset_ne _ _ _ _ hk, mget_mset_ne _ _ _ _ hk] at hr
          exact h.out_lat k r hr
      · intro k p hp
        by_cases hk : k = a.hex
        · subst hk
          rw [mget_mset_self] at hp
          cases hp
          exact pushDelaySample_length [] [] (delayOf math s a)
            (jnow - a.seen_pos) rfl
        · rw [mget_mset_ne _ _ _ _ hk, mget_mset_ne _ _ _ _ hk] at hp
          exact h.proc_len k p hp
      · intro k p hp
        by_cases hk : k = a.hex
        · subst hk
          rw [mget_mset_self] at hp
          cases hp
          exact pushDelaySample_ne [] [] (delayOf math s a) (jnow - a.seen_pos)
        · rw [mget_mset_ne _ _ _ _ hk, mget_mset_ne _ _ _ _ hk] at hp
          exact h.proc_ne k p hp
    | some o₀ =>
      obtain ⟨p₀, hpm⟩ : ∃ p₀, mget s.proc a.hex = some p₀ := by
        have h1 : (mget s.out a.hex).isSome := by rw [hmem]; rfl
        have h2 := hiff.mpr h1
        exact Option.isSome_iff_exists.mp h2
      rw [processAircraft_present math jnow s a o₀ p₀ hv hmem
        (h.out_lat _ _ hmem) hpm]
      constructor
      · show keysOf (mset s.out a.hex _) = keysOf (mset s.proc a.hex _)
        rw [keysOf_mset_present _ _ _ (by rw [hmem]; rfl),
          keysOf_mset_present _ _ _ (by rw [hpm]; rfl), h.keys_eq]
      · intro k r hr
        by_cases hk : k = a.hex
        · subst hk
          rw [mget_mset_self] at hr
          cases hr
          rw [mkOutRec_lat]
          exact h.out_lat _ _ hmem
        · rw [mget_mset_ne _ _ _ _ hk] at hr
          exact h.out_lat k r hr
      · intro k p hp
        by_cases hk : k = a.hex
        · subst hk
          rw [mget_mset_self] at hp
          cases hp
          exact pushDelaySample_length _ _ _ _ (h.proc_len _ _ hpm)
        · rw [mget_mset_ne _ _ _ _ hk] at hp
          exact h.proc_len k p hp
      · intro k p hp
        by_cases hk : k = a.hex
        · subst hk
          rw [mget_mset_self] at hp
          cases hp
          exact pushDelaySample_ne _ _ _ _
        · rw [mget_mset_ne _ _ _ _ hk] at hp
          exact h.proc_ne k p hp
  · rw [processAircraft_invalid math jnow s a hv]
    exact h

lemma wf_foldPlanes (math : JsMath) (jnow : ℚ) :
    ∀ (planes : List Aircraft) (s : Session), WF s →
    WF (planes.foldl (fun st a => processAircraft math jnow st a) s) := by
  intro planes
  induction planes with
  | nil => intro s h; exact h
  | cons a rest ih =>
    intro s h
    exact ih _ (wf_processAircraft math jnow s a h)

lemma wf_adsb2dd (math : JsMath) (now jnow : ℚ) (planes : List Aircraft)
    (s : Session) (h : WF s) : WF (adsb2ddModel math now jnow planes s) :=
  wf_foldPlanes math jnow planes _ (wf_evict now s h)

lemma wf_scalar (s : Session) (lp lpt : ℚ) (h : WF s) :
    WF { s with lastProcessed := lp, lastProcessedTime := lpt } :=
  ⟨h.keys_eq, h.out_lat, h.proc_len, h.proc_ne⟩

lemma processTickFinish_eq (now jnow : ℚ) (s1 : Session) :
    processTickFinish now jnow s1
      = if now - s1.timestamp > 30 then none
        else some { s1 with lastProcessed := jnow, lastProcessedTime := now } :=
  rfl

lemma wf_tick (math : JsMath) (now : ℚ) (j : TarJson) (s s1 : Session)
    (hts : processSessionTick math now j s = some s1) (h : WF s) : WF s1 := by
  unfold processSessionTick at hts
  cases hj : j.aircraft with
  | none =>
    rw [hj] at hts
    injection hts with h1
    subst h1
    exact h
  | some planes =>
    rw [hj] at hts
    dsimp only at hts
    by_cases hdb : j.now = s.lastProcessed ∧ now - s.lastProcessedTime < 10
    · rw [if_pos hdb] at hts
      injection hts with h1
      subst h1
      exact h
    · rw [if_neg hdb, processTickFinish_eq] at hts
      by_cases hev : now - (adsb2ddModel math now j.now planes s).timestamp > 30
      · rw [if_pos hev] at hts
        exact absurd hts (by simp)
      · rw [if_neg hev] at hts
        injection hts with h1
        subst h1
        exact wf_scalar _ _ _ (wf_adsb2dd math now j.now planes s h)

lemma wf_mkSession (math : JsMath) (rxLat rxLon rxAlt txLat txLon txAlt fc now : ℚ) :
    WF (mkSession math rxLat rxLon rxAlt txLat txLon txAlt fc now) := by
  constructor
  · rfl
  · intro k r hr
    simp [mkSession, mget] at hr
  · intro k p hp
    simp [mkSession, mget] at hp
  · intro k p hp
    simp [mkSession, mget] at hp

lemma reachable_wf (math : JsMath) (s : Session) (h : Reachable math s) :
    WF s := by
  induction h with
  | init rxLat rxLon rxAlt txLat txLon txAlt fc now =>
    exact wf_mkSession math rxLat rxLon rxAlt txLat txLon txAlt fc now
  | tick now j _ hstep ih => exact wf_tick math now j _ _ hstep ih
  | read now _ ih => exact ⟨ih.keys_eq, ih.out_lat, ih.proc_len, ih.proc_ne⟩

lemma processAircraft_timestamp (math : JsMath) (jnow : ℚ) (s : Session)
    (a : Aircraft) : (processAircraft math jnow s a).timestamp = s.timestamp := by
  by_cases hv : isValidAircraft a = true
  · by_cases hmem : (mget s.out a.hex).isSome = true
    · simp only [processAircraft, hv, if_true, hmem]
      split <;> rfl
    · simp only [processAircraft, hv, if_true, hmem,
        Bool.false_eq_true, if_false]
      split <;> rfl
  · rw [processAircraft_invalid math jnow s a hv]

lemma foldPlanes_timestamp (math : JsMath) (jnow : ℚ) :
    ∀ (planes : List Aircraft) (s : Session),
    (planes.foldl (fun st a => processAircraft math jnow st a) s).timestamp
      = s.timestamp := by
  intro planes
  induction planes with
  | nil => intro s; rfl
  | cons a rest ih =>
    intro s
    rw [List.foldl_cons, ih, processAircraft_timestamp]

lemma adsb2ddModel_timestamp (math : JsMath) (now jnow : ℚ)
    (planes : List Aircraft) (s : Session) :
    (adsb2ddModel math now jnow planes s).timestamp = s.timestamp := by
  unfold adsb2ddModel
  rw [foldPlanes_timestamp]
  rfl

end SessionLemmas

section SyntheticLemmas

lemma detectionPass_lengths (math : JsMath) (cfg : SyntheticConfig) :
    ∀ (dict : List (ℕ × AirData)) (r : SyntheticRNG),
    (detectionPass math cfg dict r).delay.length
        = (detectionPass math cfg dict r).doppler.length ∧
    (detectionPass math cfg dict r).doppler.length
        = (detectionPass math cfg dict r).snr.length ∧
    (detectionPass math cfg dict r).snr.length
        = (detectionPass math cfg dict r).adsb.length := by
  intro dict
  induction dict with
  | nil => intro r; exact ⟨rfl, rfl, rfl⟩
  | cons hd rest ih =>
    intro r
    obtain ⟨hex, data⟩ := hd
    rcases hdl : data.delay with _ | dl <;> rcases hdp : data.doppler with _ | dp <;>
      simp only [detectionPass, hdl, hdp]
    · exact ih r
    · exact ih r
    · exact ih r
    · split
      · refine ⟨?_, ?_, ?_⟩ <;> simp only [List.length_cons]
        · rw [(ih _).1]
        · rw [(ih _).2.1]
        · rw [(ih _).2.2]
      · exact ih _

lemma detectionPass_adsb_some (math : JsMath) (cfg : SyntheticConfig) :
    ∀ (dict : List (ℕ × AirData)) (r : SyntheticRNG),
    ∀ x ∈ (detectionPass math cfg dict r).adsb, x.isSome := by
  intro dict
  induction dict with
  | nil => intro r x hx; simp [detectionPass] at hx
  | cons hd rest ih =>
    intro r x hx
    obtain ⟨hex, data⟩ := hd
    rcases hdl : data.delay with _ | dl <;> rcases hdp : data.doppler with _ | dp <;>
      simp only [detectionPass, hdl, hdp] at hx
    · exact ih r x hx
    · exact ih r x hx
    · exact ih r x hx
    · revert hx
      split
      · intro hx
        rcases List.mem_cons.mp hx with h | h
        · subst h; rfl
        · exact ih _ x h
      · intro hx
        exact ih _ x hx

lemma clutterPass_shape (cfg : SyntheticConfig) :
    ∀ (n : ℕ) (r : SyntheticRNG),
    (clutterPass cfg n r).adsb = List.replicate n none ∧
    (clutterPass cfg n r).delay.length = n ∧
    (clutterPass cfg n r).doppler.length = n ∧
    (clutterPass cfg n r).snr.length = n := by
  intro n
  induction n with
  | zero => intro r; exact ⟨rfl, rfl, rfl, rfl⟩
  | succ m ih =>
    intro r
    obtain ⟨h1, h2, h3, h4⟩ := ih ((((r.uniform cfg.delay_min cfg.delay_max).2.uniform
      cfg.doppler_min cfg.doppler_max).2.uniform cfg.snr_min (cfg.snr_max * 0.7)).2)
    refine ⟨?_, ?_, ?_, ?_⟩ <;>
      simp only [clutterPass, List.length_cons, List.replicate_succ]
    · rw [h1]
    · rw [h2]
    · rw [h3]
    · rw [h4]

lemma uniform_bounds (r : SyntheticRNG) (lo hi : ℚ)
    (hs : ∀ i, 0 ≤ r.stream i ∧ r.stream i < 1) (hlh : lo ≤ hi) :
    lo ≤ (r.uniform lo hi).1 ∧ (r.uniform lo hi).1 ≤ hi := by
  obtain ⟨h0, h1⟩ := hs r.idx
  constructor
  · have : 0 ≤ r.stream r.idx * (hi - lo) :=
      mul_nonneg h0 (by linarith)
    show lo ≤ lo + r.stream r.idx * (hi - lo)
    linarith
  · have : r.stream r.idx * (hi - lo) ≤ 1 * (hi - lo) :=
      mul_le_mul_of_nonneg_right (le_of_lt h1) (by linarith)
    show lo + r.stream r.idx * (hi - lo) ≤ hi
    linarith

lemma clutterPass_snr_bounds (cfg : SyntheticConfig)
    (hcap : cfg.snr_min ≤ cfg.snr_max * 0.7) :
    ∀ (n : ℕ) (r : SyntheticRNG), (∀ i, 0 ≤ r.stream i ∧ r.stream i < 1) →
    ∀ x ∈ (clutterPass cfg n r).snr,
      cfg.snr_min ≤ x ∧ x ≤ cfg.snr_max * 0.7 := by
  intro n
  induction n with
  | zero => intro r _ x hx; simp [clutterPass] at hx
  | succ m ih =>
    intro r hs x hx
    simp only [clutterPass, List.mem_cons] at hx
    rcases hx with h | h
    · subst h
      exact uniform_bounds _ cfg.snr_min (cfg.snr_max * 0.7) hs hcap
    · exact ih (((r.uniform cfg.delay_min cfg.delay_max).2.uniform
        cfg.doppler_min cfg.doppler_max).2.uniform cfg.snr_min
        (cfg.snr_max * 0.7)).2 hs x h

lemma clutterPass_delay_bounds (cfg : SyntheticConfig)
    (hlh : cfg.delay_min ≤ cfg.delay_max) :
    ∀ (n : ℕ) (r : SyntheticRNG), (∀ i, 0 ≤ r.stream i ∧ r.stream i < 1) →
    ∀ x ∈ (clutterPass cfg n r).delay,
      cfg.delay_min ≤ x ∧ x ≤ cfg.delay_max := by
  intro n
  induction n with
  | zero => intro r _ x hx; simp [clutterPass] at hx
  | succ m ih =>
    intro r hs x hx
    simp only [clutterPass, List.mem_cons] at hx
    rcases hx with h | h
    · subst h
      exact uniform_bounds _ cfg.delay_min cfg.delay_max hs hlh
    · exact ih (((r.uniform cfg.delay_min cfg.delay_max).2.uniform
        cfg.doppler_min cfg.doppler_max).2.uniform cfg.snr_min
        (cfg.snr_max * 0.7)).2 hs x h

lemma clutterPass_doppler_bounds (cfg : SyntheticConfig)
    (hlh : cfg.doppler_min ≤ cfg.doppler_max) :
    ∀ (n : ℕ) (r : SyntheticRNG), (∀ i, 0 ≤ r.stream i ∧ r.stream i < 1) →
    ∀ x ∈ (clutterPass cfg n r).doppler,
      cfg.doppler_min ≤ x ∧ x ≤ cfg.doppler_max := by
  intro n
  induction n with
  | zero => intro r _ x hx; simp [clutterPass] at hx
  | succ m ih =>
    intro r hs x hx
    simp only [clutterPass, List.mem_cons] at hx
    rcases hx with h | h
    · subst h
      exact uniform_bounds _ cfg.doppler_min cfg.doppler_max hs hlh
    · exact ih (((r.uniform cfg.delay_min cfg.delay_max).2.uniform
        cfg.doppler_min cfg.doppler_max).2.uniform cfg.snr_min
        (cfg.snr_max * 0.7)).2 hs x h

end SyntheticLemmas

section GateLemmas

lemma doppler_none_of_not_gates (math : JsMath) (a : Aircraft)
    (tar rxE txE : Vec3) (d1 d2 fc : ℚ)
    (h : velocityGatesOk a d1 d2 = true → False) :
    calculateDopplerFromVelocity math a tar rxE txE d1 d2 fc = none := by
  unfold calculateDopplerFromVelocity
  rw [if_neg (fun hc => h hc)]

lemma gatesOk_imp (a : Aircraft) (dRxTar dTxTar : ℚ)
    (h : velocityGatesOk a dRxTar dTxTar = true) :
    ∃ g t la lo, a.gs = some g ∧ a.track = some t ∧ a.lat = some la ∧
      a.lon = some lo ∧ 0 ≤ g ∧ g ≤ 1000 ∧ 0 ≤ t ∧ t < 360 ∧
      100 ≤ dRxTar ∧ 100 ≤ dTxTar ∧ -90 ≤ la ∧ la ≤ 90 ∧ -180 ≤ lo ∧
      lo ≤ 180 ∧ (∀ al, a.alt_geom = some al → -1000 ≤ al ∧ al ≤ 100000) ∧
      (∀ vr, a.geom_rate = some vr → |vr| ≤ 20000) := by
  rcases hgs : a.gs with _ | g <;> rcases htr : a.track with _ | t <;>
    rcases hla : a.lat with _ | la <;> rcases hlo : a.lon with _ | lo <;>
    simp only [velocityGatesOk, hgs, htr, hla, hlo, Bool.false_eq_true] at h
  simp only [Bool.and_eq_true, decide_eq_true_eq, and_assoc] at h
  obtain ⟨h1, h2, h3, h4, h5, h6, h7, h8, h9, h10, h11, h12⟩ := h
  refine ⟨g, t, la, lo, rfl, rfl, rfl, rfl, h1, h2, h3, h4, h5, h6, h7, h8,
    h9, h10, ?_, ?_⟩
  · intro al hal
    rw [hal] at h11
    simpa using h11
  · intro vr hvr
    rw [hvr] at h12
    simpa using h12

end GateLemmas

/-- C1: for every aircraft kinematic report and geometry, the velocity
Doppler estimator returns a Doppler value or the null sentinel (it is a
total function into an option type) and each validity gate independently
forces the null sentinel, for every interpretation of the host math
primitives — so the gates decide the outcome before any computation:
ground speed undefined (or negative, or above 1000 kt), track undefined
(or outside [0, 360)), either node distance below 100 m, latitude or
longitude out of range, altitude outside [-1000, 100000] ft when present,
or vertical rate exceeding 20000 ft/min in magnitude when present. -/
theorem c1_velocity_gates (math : JsMath) (a : Aircraft)
    (tar rxE txE : Vec3) (dRxTar dTxTar fc : ℚ) :
    (a.gs = none →
      calculateDopplerFromVelocity math a tar rxE txE dRxTar dTxTar fc = none) ∧
    (∀ g, a.gs = some g → (g < 0 ∨ 1000 < g) →
      calculateDopplerFromVelocity math a tar rxE txE dRxTar dTxTar fc = none) ∧
    (a.track = none →
      calculateDopplerFromVelocity math a tar rxE txE dRxTar dTxTar fc = none) ∧
    (∀ t, a.track = some t → (t < 0 ∨ 360 ≤ t) →
      calculateDopplerFromVelocity math a tar rxE txE dRxTar dTxTar fc = none) ∧
    ((dRxTar < 100 ∨ dTxTar < 100) →
      calculateDopplerFromVelocity math a tar rxE txE dRxTar dTxTar fc = none) ∧
    (∀ la, a.lat = some la → (la < -90 ∨ 90 < la) →
      calculateDopplerFromVelocity math a tar rxE txE dRxTar dTxTar fc = none) ∧
    (∀ lo, a.lon = some lo → (lo < -180 ∨ 180 < lo) →
      calculateDopplerFromVelocity math a tar rxE txE dRxTar dTxTar fc = none) ∧
    (∀ al, a.alt_geom = some al → (al < -1000 ∨ 100000 < al) →
      calculateDopplerFromVelocity math a tar rxE txE dRxTar dTxTar fc = none) ∧
    (∀ vr, a.geom_rate = some vr → 20000 < |vr| →
      calculateDopplerFromVelocity math a tar rxE txE dRxTar dTxTar fc = none) := by
  refine ⟨?_, ?_, ?_, ?_, ?_, ?_, ?_, ?_, ?_⟩
  · intro hg
    apply doppler_none_of_not_gates
    intro hok
    obtain ⟨g, _, _, _, hgs, _⟩ := gatesOk_imp a dRxTar dTxTar hok
    rw [hg] at hgs
    cases hgs
  · intro g hg hb
    apply doppler_none_of_not_gates
    intro hok
    obtain ⟨g2, _, _, _, hgs, _, _, _, h0, h1, _⟩ := gatesOk_imp a dRxTar dTxTar hok
    rw [hg] at hgs
    injection hgs with he
    subst he
    rcases hb with hb | hb <;> linarith
  · intro hg
    apply doppler_none_of_not_gates
    intro hok
    obtain ⟨_, t, _, _, _, htr, _⟩ := gatesOk_imp a dRxTar dTxTar hok
    rw [hg] at htr
    cases htr
  · intro t hg hb
    apply doppler_none_of_not_gates
    intro hok
    obtain ⟨_, t2, _, _, _, htr, _, _, _, _, h0, h1, _⟩ :=
      gatesOk_imp a dRxTar dTxTar hok
    rw [hg] at htr
    injection htr with he
    subst he
    rcases hb with hb | hb <;> linarith
  · intro hb
    apply doppler_none_of_not_gates
    intro hok
    obtain ⟨_, _, _, _, _, _, _, _, _, _, _, _, h1, h2, _⟩ :=
      gatesOk_imp a dRxTar dTxTar hok
    rcases hb with hb | hb <;> linarith
  · intro la hg hb
    apply doppler_none_of_not_gates
    intro hok
    obtain ⟨_, _, la2, _, _, _, hla, _, _, _, _, _, _, _, h0, h1, _⟩ :=
      gatesOk_imp a dRxTar dTxTar hok
    rw [hg] at hla
    injection hla with he
    subst he
    rcases hb with hb | hb <;> linarith
  · intro lo hg hb
    apply doppler_none_of_not_gates
    intro hok
    obtain ⟨_, _, _, lo2, _, _, _, hlo, _, _, _, _, _, _, _, _, h0, h1, _⟩ :=
      gatesOk_imp a dRxTar dTxTar hok
    rw [hg] at hlo
    injection hlo with he
    subst he
    rcases hb with hb | hb <;> linarith
  · intro al hg hb
    apply doppler_none_of_not_gates
    intro hok
    obtain ⟨_, _, _, _, _, _, _, _, _, _, _, _, _, _, _, _, _, _, halt, _⟩ :=
      gatesOk_imp a dRxTar dTxTar hok
    obtain ⟨h0, h1⟩ := halt al hg
    rcases hb with hb | hb <;> linarith
  · intro vr hg hb
    apply doppler_none_of_not_gates
    intro hok
    obtain ⟨_, _, _, _, _, _, _, _, _, _, _, _, _, _, _, _, _, _, _, hrate⟩ :=
      gatesOk_imp a dRxTar dTxTar hok
    have := hrate vr hg
    linarith

/-- C1 witness: a 360-degree track forces the null sentinel at a concrete,
otherwise valid report. -/
theorem c1_velocity_gates_witness :
    calculateDopplerFromVelocity mathZero
      { hex := 1, lat := some 0, lon := some 0, alt_geom := some 10000,
        flight := some 1, gs := some 194, track := some 360,
        geom_rate := none, seen_pos := 0 }
      ⟨0, 0, 0⟩ ⟨1, 0, 0⟩ ⟨0, 1, 0⟩ 1000 1000 100 = none :=
  (c1_velocity_gates mathZero
      { hex := 1, lat := some 0, lon := some 0, alt_geom := some 10000,
        flight := some 1, gs := some 194, track := some 360,
        geom_rate := none, seen_pos := 0 }
      ⟨0, 0, 0⟩ ⟨1, 0, 0⟩ ⟨0, 1, 0⟩ 1000 1000 100).2.2.2.1 360 rfl
    (Or.inr (by norm_num))

/-- C2: for every pair of equal-length arrays of at least two delay
samples with timestamps, the smoother computes at each index the median
(even windows averaging the two middle values) of the forward finite
differences over the trailing window of min(10, available) samples ending
at that index, the first element of each window contributing a zero; and
for three equally spaced delay samples rising at 100 units/s the smoothed
derivative at the last index is exactly 100. -/
theorem c2_smoothed_derivative :
    (∀ (delays ts : List ℚ), delays.length = ts.length → 2 ≤ delays.length →
      smoothedDerivativeUsingMedian delays ts 10
        = some (smoothedDerivativeSpec delays ts 10)) ∧
    smoothedDerivativeUsingMedian [0, 100, 200] [0, 1, 2] 10
      = some [0, 50, 100] := by
  constructor
  · intro delays ts h1 h2
    exact smoothed_eq_spec delays ts h1 h2
  · with_unfolding_all decide

/-- C2 witness: the general window-median characterisation evaluated on the
three-sample linear ramp. -/
theorem c2_smoothed_derivative_witness :
    smoothedDerivativeUsingMedian [0, 100, 200] [0, 1, 2] 10
      = some (smoothedDerivativeSpec [0, 100, 200] [0, 1, 2] 10) :=
  c2_smoothed_derivative.1 [0, 100, 200] [0, 1, 2] (by decide) (by decide)

/-- C3: the smoother is supposed to reject non-strictly-increasing
timestamps as a precondition violation, but its guard only inspects the
array lengths and the window size: fed strictly decreasing timestamps it
returns a numeric derivative ([0, -50]) instead of throwing. -/
theorem c3_monotonicity_not_rejected :
    smoothedDerivativeUsingMedian [0, 100] [1, 0] 10 = some [0, -50] := by
  with_unfolding_all decide

lemma pushFold_inv (ops : List (ℚ × ℚ)) :
    ∀ (ds ts : List ℚ), ds.length = ts.length → ds.length ≤ 9 →
    (ops.foldl (fun acc op => pushDelaySample acc.1 acc.2 op.1 op.2)
        (ds, ts)).1.length
      = (ops.foldl (fun acc op => pushDelaySample acc.1 acc.2 op.1 op.2)
        (ds, ts)).2.length ∧
    (ops.foldl (fun acc op => pushDelaySample acc.1 acc.2 op.1 op.2)
        (ds, ts)).1.length ≤ 9 := by
  induction ops with
  | nil => intro ds ts h1 h2; exact ⟨h1, h2⟩
  | cons op rest ih =>
    intro ds ts h1 h2
    rw [List.foldl_cons]
    have hstep := ih (pushDelaySample ds ts op.1 op.2).1
      (pushDelaySample ds ts op.1 op.2).2
      (pushDelaySample_length ds ts op.1 op.2 h1)
      (pushDelaySample_len_le ds ts op.1 op.2 h2)
    exact hstep

lemma push_at_bound (ds ts : List ℚ) (d t : ℚ)
    (h1 : ds.length = ts.length) (h2 : 9 ≤ ds.length) :
    pushDelaySample ds ts d t = ((ds ++ [d]).drop 1, (ts ++ [t]).drop 1) := by
  simp only [pushDelaySample]
  rw [if_pos]
  simp only [List.length_append, List.length_singleton]
  omega

/-- C8: the per-track history behaves as a bounded FIFO buffer: starting
from the empty buffers, after any sequence of pushed samples the delays
and timestamps arrays have equal length, that length never exceeds 10
(indeed it stays at 9 or below between pushes), and a push that reaches
the bound drops the oldest (front) pair from both arrays. -/
theorem c8_bounded_fifo :
    (∀ ops : List (ℚ × ℚ),
      (ops.foldl (fun acc op => pushDelaySample acc.1 acc.2 op.1 op.2)
          (([] : List ℚ), ([] : List ℚ))).1.length
        = (ops.foldl (fun acc op => pushDelaySample acc.1 acc.2 op.1 op.2)
          (([] : List ℚ), ([] : List ℚ))).2.length ∧
      (ops.foldl (fun acc op => pushDelaySample acc.1 acc.2 op.1 op.2)
          (([] : List ℚ), ([] : List ℚ))).1.length ≤ 10) ∧
    (∀ (ds ts : List ℚ) (d t : ℚ), ds.length = ts.length → 9 ≤ ds.length →
      pushDelaySample ds ts d t = ((ds ++ [d]).drop 1, (ts ++ [t]).drop 1)) := by
  constructor
  · intro ops
    obtain ⟨h1, h2⟩ := pushFold_inv ops [] [] rfl (by simp)
    exact ⟨h1, le_trans h2 (by omega)⟩
  · intro ds ts d t h1 h2
    exact push_at_bound ds ts d t h1 h2

/-- C8 witness: pushing onto a full nine-sample buffer evicts the front
pair. -/
theorem c8_bounded_fifo_witness :
    pushDelaySample (List.replicate 9 0) (List.replicate 9 0) 1 2
      = ((List.replicate 9 (0 : ℚ) ++ [1]).drop 1,
         (List.replicate 9 (0 : ℚ) ++ [2]).drop 1) :=
  c8_bounded_fifo.2 (List.replicate 9 0) (List.replicate 9 0) 1 2
    (by simp) (by simp)

lemma mkOutRec_delay (o : OutRec) (ts : ℚ) (fl : Option ℕ) (dk : ℚ)
    (vel pos : Option ℚ) :
    (mkOutRec o ts fl dk vel pos).delay = some (limit_digits dk) := by
  unfold mkOutRec
  cases vel <;> cases pos <;> rfl

/-- C10: every numeric field written to an output record goes through
`limit_digits`: an integral value is passed through unchanged as a JSON
number, any other value becomes the decimal string of its toFixed(5)
rounding — with a sign, integer digits, and exactly five digits after the
decimal point — so these public fields switch between the number and
string JSON types depending on the value; the record's delay field is
always such a `limit_digits` image. -/
theorem c10_limit_digits (q : ℚ) :
    (q.den = 1 → limit_digits q = JsValue.num q) ∧
    (q.den ≠ 1 → limit_digits q = JsValue.str (toFixed5 q) ∧
      ∃ digits, toFixed5 q
          = intPart5 q (scaled5 q) ++ String.mk (Char.ofNat 46 :: digits) ∧
        digits.length = 5) ∧
    (∀ (o : OutRec) (ts : ℚ) (fl : Option ℕ) (vel pos : Option ℚ),
      (mkOutRec o ts fl q vel pos).delay = some (limit_digits q)) ∧
    limit_digits (3 : ℚ) = JsValue.num 3 ∧
    limit_digits (1 / 2 : ℚ) = JsValue.str (toFixed5 (1 / 2)) := by
  refine ⟨?_, ?_, ?_, ?_, ?_⟩
  · intro h
    simp [limit_digits, h]
  · intro h
    refine ⟨by simp [limit_digits, h], frac5 (scaled5 q), rfl, rfl⟩
  · intro o ts fl vel pos
    exact mkOutRec_delay o ts fl q vel pos
  · with_unfolding_all decide
  · with_unfolding_all decide

/-- C10 witness: the number/string type switch at the concrete values 3
and 1/2. -/
theorem c10_limit_digits_witness :
    limit_digits (3 : ℚ) = JsValue.num 3 ∧
    limit_digits (1 / 2 : ℚ) = JsValue.str (toFixed5 (1 / 2)) :=
  ⟨(c10_limit_digits 3).1 (by with_unfolding_all decide),
   ((c10_limit_digits (1 / 2)).2.1 (by with_unfolding_all decide)).1⟩

/-- C6 counterexample: a session whose client has been idle for 31 s (over
the 30 s threshold) is not removed by a tick whose payload is malformed:
eviction is not evaluated at tick start, so the claim fails at this
input. -/
theorem c6_eviction_counterexample :
    (31 : ℚ) - (sessionIdle : Session).timestamp > 30 ∧
    processSessionTick mathZero 31 { now := 31, aircraft := none }
      sessionIdle
      = some sessionIdle := by
  constructor
  · norm_num [sessionIdle]
  · rfl

/-- C6 amended: session eviction is evaluated at the end of a processed
tick (after the transform and the last-processed update), never on a tick
skipped for a malformed payload or by the debounce — both skip paths
return the session untouched whatever its idle time, so a session idle
over 30 s survives such a tick; on a processed tick an idle time over
30 s deletes the session; a client read resets the idle clock, so a
session read at second t0 survives any processed tick up to 30 s later —
in particular one read at second 29 survives past second 30. -/
theorem c6_eviction_amended :
    (∀ (math : JsMath) (now : ℚ) (j : TarJson) (s : Session)
        (planes : List Aircraft), j.aircraft = some planes →
      ¬(j.now = s.lastProcessed ∧ now - s.lastProcessedTime < 10) →
      now - s.timestamp > 30 →
      processSessionTick math now j s = none) ∧
    (∀ (math : JsMath) (now : ℚ) (j : TarJson) (s : Session),
      j.aircraft = none → processSessionTick math now j s = some s) ∧
    (∀ (math : JsMath) (now : ℚ) (j : TarJson) (s : Session)
        (planes : List Aircraft), j.aircraft = some planes →
      j.now = s.lastProcessed ∧ now - s.lastProcessedTime < 10 →
      processSessionTick math now j s = some s) ∧
    (∀ (now : ℚ) (s : Session), (readSession now s).timestamp = now) ∧
    (∀ (math : JsMath) (t0 t1 : ℚ) (j : TarJson) (s : Session),
      t1 - t0 ≤ 30 →
      processSessionTick math t1 j (readSession t0 s) ≠ none) := by
  refine ⟨?_, ?_, ?_, ?_, ?_⟩
  · intro math now j s planes hj hdb hev
    unfold processSessionTick
    rw [hj]
    dsimp only
    rw [if_neg hdb, processTickFinish_eq, adsb2ddModel_timestamp,
      if_pos hev]
  · intro math now j s hj
    obtain ⟨jn, ja⟩ := j
    dsimp only at hj
    subst hj
    rfl
  · intro math now j s planes hj hdb
    unfold processSessionTick
    rw [hj]
    dsimp only
    rw [if_pos hdb]
  · intro now s
    rfl
  · intro math t0 t1 j s hle
    unfold processSessionTick
    obtain ⟨jn, ja⟩ := j
    cases ja with
    | none => simp
    | some planes =>
      dsimp only
      split
      · simp
      · rw [processTickFinish_eq, adsb2ddModel_timestamp]
        rw [if_neg (by show ¬(t1 - (readSession t0 s).timestamp > 30); show ¬(t1 - t0 > 30); linarith)]
        simp

/-- C6 amended witness: a processed tick at second 40 with the client idle
since second 0 deletes the session, while a debounced tick at second 35
leaves a session idle for 35 s (over the 30 s threshold) untouched. -/
theorem c6_eviction_amended_witness :
    processSessionTick mathZero 40 { now := 40, aircraft := some [] }
      sessionIdle
      = none ∧
    (35 : ℚ) - sessionIdleDebounce.timestamp > 30 ∧
    processSessionTick mathZero 35 { now := 5, aircraft := some [] }
      sessionIdleDebounce
      = some sessionIdleDebounce :=
  ⟨c6_eviction_amended.1 mathZero 40 { now := 40, aircraft := some [] }
    sessionIdle
    [] rfl (by with_unfolding_all decide) (by with_unfolding_all decide),
   by norm_num [sessionIdleDebounce],
   c6_eviction_amended.2.2.1 mathZero 35 { now := 5, aircraft := some [] }
    sessionIdleDebounce
    [] rfl (by with_unfolding_all decide)⟩

/-- C7 counterexample: a failed fetch does not leave the session state
unchanged: the fetcher fabricates a live empty snapshot (current wall
time, empty aircraft array), and processing it evicts the stale track and
updates the last-processed times — contradicting the claim that a fetch
failure skips the tick with no state change. -/
theorem c7_fetch_failure_counterexample :
    getTar1090Model none 100 = { now := 100, aircraft := some [] } ∧
    processSessionTick mathZero 100 (getTar1090Model none 100)
      sessionStale
      = some sessionStaleTicked := by
  constructor
  · rfl
  · with_unfolding_all decide

/-- C7 amended: only a malformed payload (missing or non-array aircraft
field) makes the tick skip silently with no state change, to be retried
next tick; a failed or timed-out fetch is swallowed by the fetcher, which
returns a fabricated snapshot with the current wall time and an empty
aircraft array, and that snapshot is processed normally (stale-track
eviction and last-processed updates included).  In neither case does an
exception reach the scheduler. -/
theorem c7_tick_failure_amended :
    (∀ (math : JsMath) (now : ℚ) (j : TarJson) (s : Session),
      j.aircraft = none → processSessionTick math now j s = some s) ∧
    (∀ t : ℚ, getTar1090Model none t = { now := t, aircraft := some [] }) := by
  constructor
  · intro math now j s hj
    obtain ⟨jn, ja⟩ := j
    dsimp only at hj
    subst hj
    rfl
  · intro t
    rfl

/-- C7 amended witness: the malformed-payload skip at a concrete session
and the fabricated empty snapshot at wall time 7. -/
theorem c7_tick_failure_amended_witness :
    processSessionTick mathZero 3 { now := 3, aircraft := none }
      sessionIdle
      = some sessionIdle ∧
    getTar1090Model none 7 = { now := 7, aircraft := some [] } :=
  ⟨c7_tick_failure_amended.1 mathZero 3 { now := 3, aircraft := none }
    sessionIdle rfl,
   c7_tick_failure_amended.2 7⟩

/-- C9 counterexample: with the validated configuration `cfgSnrHigh`
(snr_min = 15, snr_max = 20) the single clutter detection of a concrete
frame carries SNR 15, which exceeds 0.7 times the configured maximum (14):
clutter SNR is not capped at 0.7 * snr_max. -/
theorem c9_snr_cap_counterexample :
    validateSyntheticConfig cfgSnrHigh = [] ∧
    (generateSyntheticFrame mathExpC9 100 [] 0 cfgSnrHigh rngC9).1.snr = [15] ∧
    (generateSyntheticFrame mathExpC9 100 [] 0 cfgSnrHigh rngC9).1.adsb = [none] ∧
    ¬((15 : ℚ) ≤ cfgSnrHigh.snr_max * 0.7) := by
  refine ⟨?_, ?_, ?_, ?_⟩ <;> with_unfolding_all decide

/-- C9 amended: every generated frame has its four arrays index-aligned
with equal lengths; the clutter section appended after the real
detections has exactly the Poisson(false_alarm_rate)-drawn count of
entries, all with null metadata, while every real detection carries
metadata; clutter delay and Doppler are uniform draws over the configured
extents (hence inside them for in-range raw draws), and clutter SNR is a
uniform draw between snr_min and 0.7 * snr_max — bounded by the 0.7 cap
only when snr_min does not already exceed it. -/
theorem c9_clutter_amended :
    (∀ (math : JsMath) (fuel : ℕ) (dict : List (ℕ × AirData)) (ts : ℚ)
        (cfg : SyntheticConfig) (r : SyntheticRNG),
      (generateSyntheticFrame math fuel dict ts cfg r).1.delay.length
          = (generateSyntheticFrame math fuel dict ts cfg r).1.doppler.length ∧
      (generateSyntheticFrame math fuel dict ts cfg r).1.doppler.length
          = (generateSyntheticFrame math fuel dict ts cfg r).1.snr.length ∧
      (generateSyntheticFrame math fuel dict ts cfg r).1.snr.length
          = (generateSyntheticFrame math fuel dict ts cfg r).1.adsb.length) ∧
    (∀ (math : JsMath) (fuel : ℕ) (dict : List (ℕ × AirData)) (ts : ℚ)
        (cfg : SyntheticConfig) (r : SyntheticRNG),
      (generateSyntheticFrame math fuel dict ts cfg r).1.adsb
        = (detectionPass math cfg dict r).adsb
          ++ List.replicate
            (SyntheticRNG.poisson math fuel (detectionPass math cfg dict r).rng
              cfg.false_alarm_rate).1 none) ∧
    (∀ (math : JsMath) (cfg : SyntheticConfig) (dict : List (ℕ × AirData))
        (r : SyntheticRNG),
      ∀ x ∈ (detectionPass math cfg dict r).adsb, x.isSome) ∧
    (∀ (cfg : SyntheticConfig) (n : ℕ) (r : SyntheticRNG),
      (∀ i, 0 ≤ r.stream i ∧ r.stream i < 1) →
      cfg.snr_min ≤ cfg.snr_max * 0.7 →
      ∀ x ∈ (clutterPass cfg n r).snr,
        cfg.snr_min ≤ x ∧ x ≤ cfg.snr_max * 0.7) ∧
    (∀ (cfg : SyntheticConfig) (n : ℕ) (r : SyntheticRNG),
      (∀ i, 0 ≤ r.stream i ∧ r.stream i < 1) →
      cfg.delay_min ≤ cfg.delay_max →
      ∀ x ∈ (clutterPass cfg n r).delay,
        cfg.delay_min ≤ x ∧ x ≤ cfg.delay_max) ∧
    (∀ (cfg : SyntheticConfig) (n : ℕ) (r : SyntheticRNG),
      (∀ i, 0 ≤ r.stream i ∧ r.stream i < 1) →
      cfg.doppler_min ≤ cfg.doppler_max →
      ∀ x ∈ (clutterPass cfg n r).doppler,
        cfg.doppler_min ≤ x ∧ x ≤ cfg.doppler_max) := by
  refine ⟨?_, ?_, ?_, ?_, ?_, ?_⟩
  · intro math fuel dict ts cfg r
    obtain ⟨d1, d2, d3⟩ := detectionPass_lengths math cfg dict r
    obtain ⟨c1, c2, c3, c4⟩ := clutterPass_shape cfg
      (SyntheticRNG.poisson math fuel (detectionPass math cfg dict r).rng
        cfg.false_alarm_rate).1
      (SyntheticRNG.poisson math fuel (detectionPass math cfg dict r).rng
        cfg.false_alarm_rate).2
    have hlr := congrArg List.length c1
    rw [List.length_replicate] at hlr
    refine ⟨?_, ?_, ?_⟩ <;>
      simp only [generateSyntheticFrame, List.length_append] <;>
      omega
  · intro math fuel dict ts cfg r
    obtain ⟨c1, _, _, _⟩ := clutterPass_shape cfg
      (SyntheticRNG.poisson math fuel (detectionPass math cfg dict r).rng
        cfg.false_alarm_rate).1
      (SyntheticRNG.poisson math fuel (detectionPass math cfg dict r).rng
        cfg.false_alarm_rate).2
    simp only [generateSyntheticFrame]
    rw [c1]
  · exact detectionPass_adsb_some
  · intro cfg n r hs hcap
    exact clutterPass_snr_bounds cfg hcap n r hs
  · intro cfg n r hs hlh
    exact clutterPass_delay_bounds cfg hlh n r hs
  · intro cfg n r hs hlh
    exact clutterPass_doppler_bounds cfg hlh n r hs

/-- C9 amended witness: the bounds applied to three clutter draws from an
in-range constant stream under the default SNR band (8 to 20 dB). -/
theorem c9_clutter_amended_witness :
    ∀ x ∈ (clutterPass
        { noise_delay := 0.5, noise_doppler := 2, snr_min := 8, snr_max := 20,
          detection_prob := 0.95, false_alarm_rate := 0.5,
          frame_interval := 500, duration := 10, delay_min := 0,
          delay_max := 400, doppler_min := -200, doppler_max := 200 }
        3 { stream := fun _ => 1 / 2, idx := 0 }).snr,
      (8 : ℚ) ≤ x ∧ x ≤ 20 * 0.7 :=
  c9_clutter_amended.2.2.2.1
    { noise_delay := 0.5, noise_doppler := 2, snr_min := 8, snr_max := 20,
      detection_prob := 0.95, false_alarm_rate := 0.5, frame_interval := 500,
      duration := 10, delay_min := 0, delay_max := 400, doppler_min := -200,
      doppler_max := 200 }
    3 { stream := fun _ => 1 / 2, idx := 0 }
    (fun _ => by constructor <;> norm_num)
    (by norm_num)

lemma mkOutRec_vel_some (o : OutRec) (ts : ℚ) (fl : Option ℕ) (dk v : ℚ)
    (pos : Option ℚ) :
    (mkOutRec o ts fl dk (some v) pos).doppler = some (limit_digits v) ∧
    (mkOutRec o ts fl dk (some v) pos).doppler_method
      = some DopplerMethod.velocity ∧
    (mkOutRec o ts fl dk (some v) pos).doppler_vel = some (limit_digits v) := by
  cases pos <;> exact ⟨rfl, rfl, rfl⟩

lemma mkOutRec_pos_only (o : OutRec) (ts : ℚ) (fl : Option ℕ) (dk q : ℚ) :
    (mkOutRec o ts fl dk none (some q)).doppler = some (limit_digits q) ∧
    (mkOutRec o ts fl dk none (some q)).doppler_method
      = some DopplerMethod.position ∧
    (mkOutRec o ts fl dk none (some q)).doppler_pos = some (limit_digits q) :=
  ⟨rfl, rfl, rfl⟩

lemma mkOutRec_pos_some (o : OutRec) (ts : ℚ) (fl : Option ℕ) (dk q : ℚ)
    (vel : Option ℚ) :
    (mkOutRec o ts fl dk vel (some q)).doppler_pos = some (limit_digits q) := by
  cases vel <;> rfl

lemma mkOutRec_none_none (o : OutRec) (ts : ℚ) (fl : Option ℕ) (dk : ℚ) :
    (mkOutRec o ts fl dk none none).doppler = o.doppler ∧
    (mkOutRec o ts fl dk none none).doppler_method = o.doppler_method ∧
    (mkOutRec o ts fl dk none none).doppler_vel = o.doppler_vel ∧
    (mkOutRec o ts fl dk none none).doppler_pos = o.doppler_pos :=
  ⟨rfl, rfl, rfl, rfl⟩

lemma posEstimate_none_of_fresh (math : JsMath) (jnow : ℚ) (s : Session)
    (a : Aircraft) (hpm : mget s.proc a.hex = none) :
    posEstimateOf math jnow s a = none := by
  unfold posEstimateOf
  simp [hpm]

lemma posEstimate_some_of_existing (math : JsMath) (jnow : ℚ) (s : Session)
    (a : Aircraft) (p₀ : ProcRec) (hpm : mget s.proc a.hex = some p₀)
    (hlen : p₀.delays.length = p₀.timestamps.length)
    (hne : p₀.delays ≠ []) :
    ∃ q, posEstimateOf math jnow s a = some q := by
  unfold posEstimateOf
  simp only [hpm, Option.getD_some]
  have hl : 2 ≤ (p₀.delays ++ [delayOf math s a]).length := by
    have : p₀.delays.length ≠ 0 := fun hc => hne (List.length_eq_zero.mp hc)
    simp only [List.length_append, List.length_singleton]
    omega
  rw [if_pos hl]
  have hsm := smoothed_eq_spec (p₀.delays ++ [delayOf math s a])
    (p₀.timestamps ++ [jnow - a.seen_pos])
    (by simp [hlen]) hl
  rw [hsm]
  exact ⟨_, rfl⟩

/-- C5: in every reachable session state the key set of the output map
equals the key set of the processing map (indeed, the key lists agree in
order): creation, per-tick updates, track eviction and session deletion
always touch both maps together. -/
theorem c5_keyset_invariant (math : JsMath) (s : Session)
    (h : Reachable math s) : keysOf s.out = keysOf s.proc :=
  (reachable_wf math s h).keys_eq

/-- C5 witness: the invariant at a freshly created session. -/
theorem c5_keyset_invariant_witness :
    keysOf (mkSession mathZero 0 0 0 1 1 0 100 0).out
      = keysOf (mkSession mathZero 0 0 0 1 1 0 100 0).proc :=
  c5_keyset_invariant mathZero (mkSession mathZero 0 0 0 1 1 0 100 0)
    (Reachable.init 0 0 0 1 1 0 100 0)

/-- C4: for every valid aircraft processed in a tick against a
well-formed session, the written output record's doppler field is the
velocity estimate when that is non-null, else the position estimate; when
both are absent (which forces the track to be new, since a known track
always yields a position estimate) the doppler, doppler_method and both
diagnostic fields are absent from the record; each raw estimate is
attached under its diagnostic field whenever it was computed — the
velocity estimate under doppler_vel whatever the position estimate is,
and the position estimate under doppler_pos whatever the velocity
estimate is, so in the common case where both are computed both
diagnostics are present. -/
theorem c4_merge_policy (math : JsMath) (jnow : ℚ) (a : Aircraft)
    (s : Session) (hv : isValidAircraft a = true) (hwf : WF s) :
    ∃ r, mget (processAircraft math jnow s a).out a.hex = some r ∧
      (∀ v, velEstimateOf math s a = some v →
        r.doppler = some (limit_digits v) ∧
        r.doppler_method = some DopplerMethod.velocity ∧
        r.doppler_vel = some (limit_digits v)) ∧
      (∀ q, posEstimateOf math jnow s a = some q →
        r.doppler_pos = some (limit_digits q)) ∧
      (velEstimateOf math s a = none →
        ∀ q, posEstimateOf math jnow s a = some q →
        r.doppler = some (limit_digits q) ∧
        r.doppler_method = some DopplerMethod.position ∧
        r.doppler_pos = some (limit_digits q)) ∧
      (velEstimateOf math s a = none → mget s.out a.hex = none →
        posEstimateOf math jnow s a = none ∧
        r.doppler = none ∧ r.doppler_method = none ∧
        r.doppler_vel = none ∧ r.doppler_pos = none) ∧
      (mget s.out a.hex ≠ none →
        ∃ q, posEstimateOf math jnow s a = some q) := by
  rcases hmem : mget s.out a.hex with _ | o₀
  · have hpm : mget s.proc a.hex = none := by
      rcases hp : mget s.proc a.hex with _ | p₀
      · rfl
      · exfalso
        have h1 : (mget s.proc a.hex).isSome := by rw [hp]; rfl
        rw [mget_isSome_iff_mem, ← hwf.keys_eq, ← mget_isSome_iff_mem] at h1
        rw [hmem] at h1
        simp at h1
    rw [processAircraft_absent math jnow s a hv hmem hpm]
    refine ⟨_, mget_mset_self _ _ _, ?_, ?_, ?_, ?_, ?_⟩
    · intro v hvel
      rw [hvel]
      exact mkOutRec_vel_some {} _ _ _ v _
    · intro q hpos
      rw [hpos]
      exact mkOutRec_pos_some {} _ _ _ q _
    · intro hvel q hpos
      rw [hvel, hpos]
      exact mkOutRec_pos_only {} _ _ _ q
    · intro hvel _
      have hpos := posEstimate_none_of_fresh math jnow s a hpm
      rw [hvel, hpos]
      exact ⟨rfl, (mkOutRec_none_none {} _ _ _).1,
        (mkOutRec_none_none {} _ _ _).2.1,
        (mkOutRec_none_none {} _ _ _).2.2.1,
        (mkOutRec_none_none {} _ _ _).2.2.2⟩
    · intro hne
      exact absurd rfl hne
  · obtain ⟨p₀, hpm⟩ : ∃ p₀, mget s.proc a.hex = some p₀ := by
      have h1 : (mget s.out a.hex).isSome := by rw [hmem]; rfl
      rw [mget_isSome_iff_mem, hwf.keys_eq, ← mget_isSome_iff_mem] at h1
      exact Option.isSome_iff_exists.mp h1
    rw [processAircraft_present math jnow s a o₀ p₀ hv hmem
      (hwf.out_lat _ _ hmem) hpm]
    refine ⟨_, mget_mset_self _ _ _, ?_, ?_, ?_, ?_, ?_⟩
    · intro v hvel
      rw [hvel]
      exact mkOutRec_vel_some o₀ _ _ _ v _
    · intro q hpos
      rw [hpos]
      exact mkOutRec_pos_some o₀ _ _ _ q _
    · intro hvel q hpos
      rw [hvel, hpos]
      exact mkOutRec_pos_only o₀ _ _ _ q
    · intro _ hc
      cases hc
    · intro _
      exact posEstimate_some_of_existing math jnow s a p₀ hpm
        (hwf.proc_len _ _ hpm) (hwf.proc_ne _ _ hpm)

/-- C4 witness: a valid report with undefined ground speed against a fresh
session leaves the doppler fields absent in the created record. -/
theorem c4_merge_policy_witness :
    ∃ r, mget (processAircraft mathZero 0
        (mkSession mathZero 0 0 0 1 1 0 100 0) aircraftNoGs).out
      aircraftNoGs.hex = some r ∧ r.doppler = none := by
  obtain ⟨r, hr, _, _, _, h3, _⟩ := c4_merge_policy mathZero 0 aircraftNoGs
    (mkSession mathZero 0 0 0 1 1 0 100 0) rfl
    (wf_mkSession mathZero 0 0 0 1 1 0 100 0)
  have hvel : velEstimateOf mathZero (mkSession mathZero 0 0 0 1 1 0 100 0)
      aircraftNoGs = none := by
    apply doppler_none_of_not_gates
    intro hok
    obtain ⟨g, _, _, _, hgs, _⟩ := gatesOk_imp aircraftNoGs _ _ hok
    cases hgs
  obtain ⟨_, hd, _⟩ := h3 hvel (by rfl)
  exact ⟨r, hr, hd⟩

end Adsb2dd
